import Mathlib

/-! # MaidSafe Vault Manager: control-plane handlers

A shallow embedding of the client handshake agent
(`src/maidsafe/private/client_controller.cc`) and of the worker identity agent
(`src/maidsafe/vault_controller.cc`).

Conventions of the embedding:

* every member function becomes a pure function from the object's fields to the
  new fields together with the list of externally visible actions it performed,
  in program order (messages handed to the transport, callback invocations,
  condition-variable notifications);
* `uint16_t` members are natural numbers, with `% 65536` written at every
  increment or narrowing conversion;
* protocol-buffer parsing, envelope unwrapping and IP-address parsing live
  outside the translated files; they are taken as parameters, bundled in a
  structure.
-/

namespace maidsafe

/-! ## Client handshake agent (`maidsafe::priv::ClientController`) -/

namespace priv

/-- Session state of the client controller (member `state_`). -/
inductive State where
  | kInitialising
  | kVerified
  | kFailed
  deriving DecidableEq, Repr

/-- The two port constants `VaultManager::kMinPort` and `VaultManager::kMaxPort`. Their
definition is outside the translated files, so they are parameters of the model. -/
structure VaultManager where
  kMinPort : Nat
  kMaxPort : Nat
  deriving DecidableEq, Repr

/-- The enumeration `VaultManagerMessageType`. The four enumerators named in
`client_controller.cc` are kept; every other enumerator is `kOther` with its integer tag. -/
inductive VaultManagerMessageType where
  | kHelloFromClient
  | kHelloResponseToClient
  | kStartRequestFromClient
  | kStartResponseToClient
  | kOther (tag : Int)
  deriving DecidableEq, Repr

/-- Transport endpoint: the textual form of the IP address (`ip.to_string()`) and the port. -/
structure Endpoint where
  ip : String
  port : Nat
  deriving DecidableEq, Repr

/-- Sender information handed to the message handlers (`Info`). -/
structure Info where
  endpoint : Endpoint
  deriving DecidableEq, Repr

/-- Parsed `ClientHelloResponse` message. -/
structure ClientHelloResponse where
  hello_response : String
  deriving DecidableEq, Repr

/-- Parsed `ClientStartVaultResponse` message. -/
structure ClientStartVaultResponse where
  result : Bool
  deriving DecidableEq, Repr

/-- The generated `ParseFromString` members used by the client controller. They are produced
by the protocol-buffer compiler and are parameters of the model; `none` is a failed parse. -/
structure Serialisation where
  parseClientHelloResponse : String → Option ClientHelloResponse
  parseClientStartVaultResponse : String → Option ClientStartVaultResponse

/-- The mutable members of `ClientController` that the handlers read and write. -/
structure ClientController where
  port_ : Nat
  state_ : State
  deriving DecidableEq, Repr

/-- Externally visible actions of the client controller. -/
inductive Action where
  /-- The call `transport->Send(hello_string, Endpoint(loopback, port), seconds(1))`. -/
  | sendHello (port : Nat)
  /-- The call `transport->Send(request_string, Endpoint(loopback, port), seconds(10))`. -/
  | sendStartVaultRequest (port : Nat)
  /-- The call `callback(result)` on the completion callback bound to the channel. -/
  | callback (result : Bool)
  /-- The call `cond_var_.notify_all()`. -/
  | notify_all
  deriving DecidableEq, Repr

/-- The members as the constructor's initialiser list leaves them: `port_(0)`,
`state_(kInitialising)`. -/
def ClientController.fresh : ClientController :=
  { port_ := 0, state_ := State.kInitialising }

/-- Translation of `ClientController::ConnectToManager`. -/
def ConnectToManager (vm : VaultManager) (c : ClientController) :
    ClientController × List Action :=
  if c.state_ ≠ State.kInitialising then
    (c, [])
  else
    let port_ := if c.port_ = 0 then vm.kMinPort % 65536 else (c.port_ + 1) % 65536
    let port := port_
    if port > vm.kMaxPort then
      ({ port_ := port_, state_ := State.kFailed }, [Action.notify_all])
    else
      ({ c with port_ := port_ }, [Action.sendHello port])

/-- Translation of `ClientController::ConnectToManagerCallback`. -/
def ConnectToManagerCallback (vm : VaultManager) (ser : Serialisation) (c : ClientController)
    (hello_response_string : String) (sender_info : Info) :
    ClientController × List Action :=
  match ser.parseClientHelloResponse hello_response_string with
  | none => ConnectToManager vm c
  | some response =>
    if response.hello_response ≠ "hello response" then
      ConnectToManager vm c
    else
      ({ port_ := sender_info.endpoint.port, state_ := State.kVerified }, [Action.notify_all])

/-- Translation of `ClientController::OnSendError`. The argument `callback` tells whether the
bound `std::function` is non-empty. -/
def OnSendError (vm : VaultManager) (c : ClientController) (callback : Bool) :
    ClientController × List Action :=
  let r := ConnectToManager vm c
  if callback then (r.1, r.2 ++ [Action.callback false]) else r

/-- Translation of `ClientController::StartVaultRequestCallback`. -/
def StartVaultRequestCallback (ser : Serialisation) (c : ClientController)
    (start_response_string : String) (callback : Bool) : ClientController × List Action :=
  if callback then
    match ser.parseClientStartVaultResponse start_response_string with
    | none => (c, [Action.callback false])
    | some response => (c, [Action.callback response.result])
  else
    (c, [])

/-- Translation of `ClientController::HandleIncomingMessage`. -/
def HandleIncomingMessage (vm : VaultManager) (ser : Serialisation) (c : ClientController)
    (type : VaultManagerMessageType) (payload : String) (info : Info) (callback : Bool) :
    ClientController × List Action :=
  if info.endpoint.ip ≠ "127.0.0.1" then
    (c, [])
  else
    match type with
    | VaultManagerMessageType.kHelloResponseToClient =>
      let r := ConnectToManagerCallback vm ser c payload info
      if callback then (r.1, r.2 ++ [Action.callback true]) else r
    | VaultManagerMessageType.kStartResponseToClient =>
      StartVaultRequestCallback ser c payload callback
    | _ => (c, [])

/-- What the transport can report on one channel: a received frame, already split by the
message handler into type, payload and sender information, or a transport error. -/
inductive ChannelEvent where
  | messageReceived (type : VaultManagerMessageType) (payload : String) (sender : Info)
  | error
  deriving DecidableEq, Repr

/-- The bindings made by `ClientController::ResetTransport`: a transport error goes to
`OnSendError` and a received frame to `HandleIncomingMessage`, both with the channel's
completion callback (`callback = false` is the null callback of a hello probe). -/
def ChannelEvent.deliver (vm : VaultManager) (ser : Serialisation) (c : ClientController)
    (callback : Bool) : ChannelEvent → ClientController × List Action
  | ChannelEvent.error => OnSendError vm c callback
  | ChannelEvent.messageReceived type payload sender =>
    HandleIncomingMessage vm ser c type payload sender callback

/-- The ports of the hello probes in a list of actions, in order. -/
def probesOf (actions : List Action) : List Nat :=
  actions.filterMap fun a =>
    match a with
    | Action.sendHello port => some port
    | _ => none

/-- The start requests in a list of actions, in order. -/
def startRequestsOf (actions : List Action) : List Nat :=
  actions.filterMap fun a =>
    match a with
    | Action.sendStartVaultRequest port => some port
    | _ => none

/-- The results passed to the completion callback in a list of actions, in order. -/
def callbacksOf (actions : List Action) : List Bool :=
  actions.filterMap fun a =>
    match a with
    | Action.callback result => some result
    | _ => none

/-! ### Port discovery against an environment -/

/-- Port discovery loop. `outstanding` holds the ports of the probes whose outcome has not
been reported yet; `env port` is the single event that ends the probe sent to `port`. One
unit of fuel delivers one outcome. The result is the controller together with every action
performed so far. -/
def runDiscovery (vm : VaultManager) (ser : Serialisation) (env : Nat → ChannelEvent) :
    Nat → ClientController → List Nat → List Action → ClientController × List Action
  | 0, c, _, log => (c, log)
  | _ + 1, c, [], log => (c, log)
  | fuel + 1, c, port :: rest, log =>
    let r := (env port).deliver vm ser c false
    runDiscovery vm ser env fuel r.1 (rest ++ probesOf r.2) (log ++ r.2)

/-- The constructor `ClientController::ClientController` (which calls `ConnectToManager`
once), followed by the delivery of at most `fuel` probe outcomes. -/
def discover (vm : VaultManager) (ser : Serialisation) (env : Nat → ChannelEvent)
    (fuel : Nat) : ClientController × List Action :=
  let r := ConnectToManager vm ClientController.fresh
  runDiscovery vm ser env fuel r.1 (probesOf r.2) r.2

/-! ### Arbitrary interleavings -/

/-- One step of an arbitrary execution: a direct call of `ConnectToManager`, or an event on
some channel, with or without a completion callback. -/
inductive Event where
  | connectToManager
  | channel (e : ChannelEvent) (callback : Bool)
  deriving DecidableEq, Repr

/-- Effect of one event. -/
def Event.apply (vm : VaultManager) (ser : Serialisation) (c : ClientController) :
    Event → ClientController × List Action
  | Event.connectToManager => ConnectToManager vm c
  | Event.channel e callback => e.deliver vm ser c callback

/-- Effect of a sequence of events, with the actions of all of them in order. -/
def runEvents (vm : VaultManager) (ser : Serialisation) :
    ClientController → List Event → ClientController × List Action
  | c, [] => (c, [])
  | c, e :: es =>
    let r := e.apply vm ser c
    let r2 := runEvents vm ser r.1 es
    (r2.1, r.2 ++ r2.2)

/-! ### The blocking wrapper `StartVault` -/

/-- The two locals `done` and `local_result` of `StartVault` that its completion lambda
writes. -/
structure Completion where
  done : Bool
  local_result : Bool
  deriving DecidableEq, Repr

/-- The completion lambda of `StartVault`, run for every callback invocation in `actions`:
`local_result = result; done = true;`. -/
def Completion.record (w : Completion) (actions : List Action) : Completion :=
  (callbacksOf actions).foldl (fun _ result => { done := true, local_result := result }) w

/-- What one event on the request channel reports to the completion callback, if anything:
a transport error reports `false`; a hello response from the loopback address reports
`true`, whatever its payload; a start response from the loopback address reports whether
its payload parses and carries a true result; a frame from any other address, or of any
other type, reports nothing. -/
def ChannelEvent.completes (ser : Serialisation) : ChannelEvent → Option Bool
  | ChannelEvent.error => some false
  | ChannelEvent.messageReceived type payload sender =>
    if sender.endpoint.ip = "127.0.0.1" then
      match type with
      | VaultManagerMessageType.kHelloResponseToClient => some true
      | VaultManagerMessageType.kStartResponseToClient =>
        match ser.parseClientStartVaultResponse payload with
        | none => some false
        | some response => some response.result
      | _ => none
    else none

/-- A hello response the controller rejects: the payload does not parse, or its text is not
`hello response`. -/
def malformedHello (ser : Serialisation) (payload : String) : Prop :=
  match ser.parseClientHelloResponse payload with
  | none => True
  | some response => response.hello_response ≠ "hello response"

/-! ### A concrete instance of the external parts -/

/-- Sample parsers: a hello response is serialised as its text and a start response as
`true` or `false`; the string `garbage` parses as neither. -/
def sampleSerialisation : Serialisation where
  parseClientHelloResponse := fun s =>
    if s = "garbage" then none else some { hello_response := s }
  parseClientStartVaultResponse := fun s =>
    if s = "true" then some { result := true }
    else if s = "false" then some { result := false }
    else none

/-- Sample port range of three ports. -/
def sampleVaultManager : VaultManager :=
  { kMinPort := 5483, kMaxPort := 5485 }

/-- Sender information of a peer on the loopback address. -/
def loopback (port : Nat) : Info :=
  { endpoint := { ip := "127.0.0.1", port := port } }

/-- Sample environment with a manager listening on port 5484: the probe to that port is
answered by a valid hello response from the loopback address, every other probe ends in
a transport error. -/
def sampleListening (port : Nat) : ChannelEvent :=
  if port = 5484 then
    ChannelEvent.messageReceived VaultManagerMessageType.kHelloResponseToClient
      "hello response" (loopback 5484)
  else ChannelEvent.error

/-- Sample environment with no manager: the probe to port 5484 is answered by a malformed
hello response from the loopback address, every other probe ends in a transport error. -/
def sampleSilent (port : Nat) : ChannelEvent :=
  if port = 5484 then
    ChannelEvent.messageReceived VaultManagerMessageType.kHelloResponseToClient
      "garbage" (loopback 5484)
  else ChannelEvent.error

/-- The locals `done` and `local_result` of `StartVault` after every event of the list has
reached the handlers bound to the request channel, with no waiter involved. -/
def recordAll (vm : VaultManager) (ser : Serialisation) :
    ClientController → Completion → List ChannelEvent → Completion
  | _, w, [] => w
  | c, w, e :: es =>
    let r := e.deliver vm ser c true
    recordAll vm ser r.1 (w.record r.2) es

/-! ### Worker start-up (`maidsafe::priv::VaultController`, `private/vault_controller.cc`) -/

/-- The members of `maidsafe::priv::VaultController` that `Start` writes. -/
structure VaultController where
  process_id_ : String
  port_ : Nat
  deriving DecidableEq, Repr

/-- The only externally visible action of `Start`: the assignment to `thd` of a thread that
runs `ConnectToManager`. -/
inductive StartAction where
  | startThread
  deriving DecidableEq, Repr

/-- The tokens of `boost::tokenizer<boost::char_separator<char>>` with separator `-`, read
from `input` while `current` holds the characters of the token under construction, in
reverse. The separator is dropped and, as is the default of `char_separator`, so are
empty tokens. -/
def tokensFrom : List Char → List Char → List String
  | [], current => if current = [] then [] else [String.mk current.reverse]
  | c :: rest, current =>
    if c = '-' then
      if current = [] then tokensFrom rest [] else String.mk current.reverse :: tokensFrom rest []
    else tokensFrom rest (c :: current)

/-- The token sequence `tok` that `Start` builds from `pid_string`. -/
def tokenizer (pid_string : String) : List String :=
  tokensFrom pid_string.data []

/-- Translation of `VaultController::Start`. `lexical_cast` stands for
`boost::lexical_cast<uint32_t>`, with `none` for a thrown `bad_lexical_cast`. The result is
the returned boolean, the members and the actions; it is `none` when the function
dereferences the end iterator of the token sequence, which the library leaves undefined.
The early `return 1` converts to `true`. -/
def Start (lexical_cast : String → Option Nat) (v : VaultController) (pid_string : String) :
    Option (Bool × VaultController × List StartAction) :=
  if pid_string = "" then
    some (true, v, [])
  else
    match tokenizer pid_string with
    | [] => none
    | first :: rest =>
      let v1 := { v with process_id_ := first }
      match rest with
      | [] => none
      | second :: _ =>
        match lexical_cast second with
        | none => some (false, v1, [])
        | some port => some (true, { v1 with port_ := port }, [StartAction.startThread])

/-- Value of a decimal digit character. -/
def digitValue (c : Char) : Option Nat :=
  if '0' ≤ c ∧ c ≤ '9' then some (c.toNat - 48) else none

/-- Value of a string of decimal digits read after the value `acc`; `none` when a character is
not a digit. -/
def parseDigits : List Char → Nat → Option Nat
  | [], acc => some acc
  | c :: rest, acc =>
    match digitValue c with
    | none => none
    | some d => parseDigits rest (acc * 10 + d)

/-- Sample instance of `lexical_cast<uint32_t>`: a non-empty string of decimal digits whose
value fits in 32 bits. -/
def sampleLexicalCast (s : String) : Option Nat :=
  if s.data = [] then none
  else
    match parseDigits s.data 0 with
    | none => none
    | some n => if n < 4294967296 then some n else none

/-- The members of the worker as its constructor leaves them: `process_id_()`, `port_(0)`. -/
def VaultController.fresh : VaultController :=
  { process_id_ := "", port_ := 0 }

/-! ### Reference descriptions for the failure of the handshake -/

/-- An event is a valid hello response from the loopback address: a frame of type
`kHelloResponseToClient` whose sender is `127.0.0.1` and whose payload parses to the text
`hello response`. -/
def Event.validHello (ser : Serialisation) : Event → Bool
  | Event.channel
      (ChannelEvent.messageReceived VaultManagerMessageType.kHelloResponseToClient payload
        sender) _ =>
    decide (sender.endpoint.ip = "127.0.0.1") &&
      (match ser.parseClientHelloResponse payload with
       | none => false
       | some response => decide (response.hello_response = "hello response"))
  | _ => false

/-- The relation between the controller and the list of ports probed so far that every
execution keeps: while the state is `kInitialising` the cursor is a 16-bit value and, unless
it is 0, every port from `kMinPort` up to the cursor has been probed; when the state is
`kFailed`, every port of the range has been probed. -/
def cursorInvariant (vm : VaultManager) (c : ClientController) (probed : List Nat) : Prop :=
  (c.state_ = State.kInitialising →
    c.port_ < 65536 ∧ (c.port_ ≠ 0 → ∀ p, vm.kMinPort ≤ p → p ≤ c.port_ → p ∈ probed)) ∧
  (c.state_ = State.kFailed → ∀ p, vm.kMinPort ≤ p → p ≤ vm.kMaxPort → p ∈ probed)

end priv

/-! ## Worker identity agent (`maidsafe::client_manager::VaultController`) -/

namespace client_manager

/-- The enumeration `MessageType`. The enumerators named in `vault_controller.cc` are kept;
every other enumerator is `kOther` with its integer tag. -/
inductive MessageType where
  | kVaultJoinedNetwork
  | kBootstrapRequest
  | kSendEndpointToClientManagerRequest
  | kVaultIdentityRequest
  | kVaultShutdownRequest
  | kOther (tag : Int)
  deriving DecidableEq, Repr

/-- A parsed `boost::asio::ip::address`, kept as its canonical text. -/
structure IpAddress where
  text : String
  deriving DecidableEq, Repr

/-- A `boost::asio::ip::udp::endpoint`. -/
structure UdpEndpoint where
  address : IpAddress
  port : Nat
  deriving DecidableEq, Repr

/-- A parsed `passport::Pmid`. -/
structure Pmid where
  name : String
  deriving DecidableEq, Repr

/-- Parsed `protobuf::VaultShutdownRequest`. -/
structure VaultShutdownRequest where
  process_index : Nat
  deriving DecidableEq, Repr

/-- The message `protobuf::VaultShutdownResponse` that the shutdown handler fills in. -/
structure VaultShutdownResponse where
  shutdown : Bool
  process_index : Nat
  deriving DecidableEq, Repr

/-- Parsed `protobuf::BootstrapResponse`: two repeated fields, read in parallel. -/
structure BootstrapResponse where
  bootstrap_endpoint_ip : List String
  bootstrap_endpoint_port : List Nat
  deriving DecidableEq, Repr

/-- Parsed `protobuf::VaultIdentityResponse`. -/
structure VaultIdentityResponse where
  pmid : String
  bootstrap_endpoint_ip : List String
  bootstrap_endpoint_port : List Nat
  deriving DecidableEq, Repr

/-- The functions the worker's handlers call that are defined outside the translated file:
`detail::UnwrapMessage`, the generated `ParseFromString` members, `passport::ParsePmid` on
a `NonEmptyString`, and `boost::asio::ip::address::from_string`. `none` stands for a `false`
return value, or for a thrown exception in the last two. -/
structure Wire where
  UnwrapMessage : String → Option (MessageType × String)
  parseVaultShutdownRequest : String → Option VaultShutdownRequest
  parseBootstrapResponse : String → Option BootstrapResponse
  parseVaultIdentityResponse : String → Option VaultIdentityResponse
  ParsePmid : String → Option Pmid
  from_string : String → Option IpAddress

/-- The data members of `VaultController` that the handlers read and write. -/
structure VaultController where
  process_index_ : Nat
  client_manager_port_ : Nat
  local_port_ : Nat
  pmid_ : Option Pmid
  bootstrap_endpoints_ : List UdpEndpoint
  deriving DecidableEq, Repr

/-- Externally visible actions of the worker's handlers. -/
inductive VaultAction where
  /-- The call `stop_callback_()`. -/
  | stop_callback
  /-- The call `callback(result)` on a request's completion callback. -/
  | callback (result : Bool)
  deriving DecidableEq, Repr

/-- Translation of the file-local `GetEndpoint`; `none` when `from_string` throws. The port
has type `Port`, a 16-bit unsigned integer. -/
def GetEndpoint (w : Wire) (ip : String) (port : Nat) : Option UdpEndpoint :=
  match w.from_string ip with
  | none => none
  | some address => some { address := address, port := port }

/-- The loop `for (int i(0); i < size; ++i)` shared by `HandleBootstrapResponse` and
`HandleVaultIdentityResponse`, started at index `i` with `remaining = size - i` iterations
to go: `push_back` of the endpoint, or `continue` when `GetEndpoint` throws.
`static_cast<Port>` narrows the port to 16 bits. -/
def pushEndpoints (w : Wire) (ips : List String) (ports : List Nat) :
    Nat → Nat → List UdpEndpoint → List UdpEndpoint
  | _, 0, endpoints => endpoints
  | i, remaining + 1, endpoints =>
    match GetEndpoint w (ips.getD i "") (ports.getD i 0 % 65536) with
    | some ep => pushEndpoints w ips ports (i + 1) remaining (endpoints ++ [ep])
    | none => pushEndpoints w ips ports (i + 1) remaining endpoints

/-- Translation of `VaultController::HandleBootstrapResponse`. The second component of the
result is the caller's vector `bootstrap_endpoints` after the call. -/
def HandleBootstrapResponse (w : Wire) (v : VaultController) (message : String)
    (bootstrap_endpoints : List UdpEndpoint) :
    VaultController × List UdpEndpoint × List VaultAction :=
  match w.UnwrapMessage message with
  | none => (v, bootstrap_endpoints, [VaultAction.callback false])
  | some (_, payload) =>
    match w.parseBootstrapResponse payload with
    | none => (v, bootstrap_endpoints, [VaultAction.callback false])
    | some bootstrap_response =>
      let size := min bootstrap_response.bootstrap_endpoint_ip.length
        bootstrap_response.bootstrap_endpoint_port.length
      let endpoints := pushEndpoints w bootstrap_response.bootstrap_endpoint_ip
        bootstrap_response.bootstrap_endpoint_port 0 size bootstrap_endpoints
      ({ v with bootstrap_endpoints_ := endpoints }, endpoints, [VaultAction.callback true])

/-- Translation of `VaultController::HandleVaultIdentityResponse`. The result is `none` when
building the `Pmid` throws; the members are then as before the call. -/
def HandleVaultIdentityResponse (w : Wire) (v : VaultController) (message : String) :
    Option VaultController :=
  match w.UnwrapMessage message with
  | none => some v
  | some (_, payload) =>
    match w.parseVaultIdentityResponse payload with
    | none => some v
    | some vault_identity_response =>
      match w.ParsePmid vault_identity_response.pmid with
      | none => none
      | some pmid =>
        let size := min vault_identity_response.bootstrap_endpoint_ip.length
          vault_identity_response.bootstrap_endpoint_port.length
        some { v with
          pmid_ := some pmid
          bootstrap_endpoints_ := pushEndpoints w vault_identity_response.bootstrap_endpoint_ip
            vault_identity_response.bootstrap_endpoint_port 0 size v.bootstrap_endpoints_ }

/-- The local `vault_shutdown_response` as `HandleVaultShutdownRequest` has filled it in when
it reaches its last statement. The handler neither sends nor returns it. -/
def vault_shutdown_response (w : Wire) (v : VaultController) (request : String) :
    VaultShutdownResponse :=
  match w.parseVaultShutdownRequest request with
  | none => { shutdown := false, process_index := v.process_index_ }
  | some vault_shutdown_request =>
    if vault_shutdown_request.process_index ≠ v.process_index_ then
      { shutdown := false, process_index := v.process_index_ }
    else
      { shutdown := true, process_index := v.process_index_ }

/-- Translation of `VaultController::HandleVaultShutdownRequest`: the three branches only
fill in the local response (see `vault_shutdown_response`); the last statement,
`stop_callback_()`, is outside the `if`/`else` chain. -/
def HandleVaultShutdownRequest (w : Wire) (v : VaultController) (request : String) :
    VaultController × List VaultAction :=
  let _response := vault_shutdown_response w v request
  (v, [VaultAction.stop_callback])

/-- Translation of `VaultController::HandleReceivedRequest`. -/
def HandleReceivedRequest (w : Wire) (v : VaultController) (message : String) :
    VaultController × List VaultAction :=
  match w.UnwrapMessage message with
  | none => (v, [])
  | some (type, payload) =>
    match type with
    | MessageType.kVaultShutdownRequest => HandleVaultShutdownRequest w v payload
    | _ => (v, [])

/-- Delivery of a sequence of received requests to `HandleReceivedRequest`, in order, with
the actions of all of them. -/
def deliverRequests (w : Wire) : VaultController → List String → VaultController × List VaultAction
  | v, [] => (v, [])
  | v, message :: rest =>
    let r := HandleReceivedRequest w v message
    let r2 := deliverRequests w r.1 rest
    (r2.1, r.2 ++ r2.2)

/-- Number of invocations of the stop callback in a list of actions. -/
def stopCount (actions : List VaultAction) : Nat :=
  actions.count VaultAction.stop_callback

/-- The endpoints a response with the parallel arrays `ips` and `ports` stands for, as the
specification words it: the pairs are taken in order and a pair whose IP address is
malformed is left out. This is the reference the loop `pushEndpoints` is compared with. -/
def validEndpoints (w : Wire) (ips : List String) (ports : List Nat) : List UdpEndpoint :=
  (ips.zip ports).filterMap fun p =>
    (w.from_string p.1).map fun address => { address := address, port := p.2 % 65536 }

/-! ### A concrete instance of the external functions

The properties below hold for every `Wire`. To evaluate the handlers on explicit inputs a
small table-driven instance is fixed here: a frame is a tag followed by its payload. -/

/-- Sample envelope decoder: `S<payload>` is a vault-shutdown request, `B<payload>` a
bootstrap response (tag 10), `I<payload>` a vault-identity response (tag 6); any other
string does not unwrap. -/
def sampleUnwrapMessage (message : String) : Option (MessageType × String) :=
  match message.data with
  | 'S' :: payload => some (MessageType.kVaultShutdownRequest, String.mk payload)
  | 'B' :: payload => some (MessageType.kOther 10, String.mk payload)
  | 'I' :: payload => some (MessageType.kOther 6, String.mk payload)
  | _ => none

/-- Sample instance of the external functions. -/
def sampleWire : Wire where
  UnwrapMessage := sampleUnwrapMessage
  parseVaultShutdownRequest := fun s =>
    if s = "1" then some { process_index := 1 }
    else if s = "2" then some { process_index := 2 }
    else none
  parseBootstrapResponse := fun s =>
    if s = "one" then
      some { bootstrap_endpoint_ip := ["10.0.0.2"], bootstrap_endpoint_port := [5002] }
    else if s = "mixed" then
      some { bootstrap_endpoint_ip := ["10.0.0.2", "not-an-ip", "10.0.0.3"],
             bootstrap_endpoint_port := [5002, 5003, 5004] }
    else none
  parseVaultIdentityResponse := fun s =>
    if s = "id" then
      some { pmid := "pmid", bootstrap_endpoint_ip := ["10.0.0.1"],
             bootstrap_endpoint_port := [5001] }
    else none
  ParsePmid := fun s => if s = "" then none else some { name := s }
  from_string := fun s =>
    if s = "10.0.0.1" ∨ s = "10.0.0.2" ∨ s = "10.0.0.3" then some { text := s } else none

/-- A worker with process index 1, before any exchange. -/
def sampleVault : VaultController :=
  { process_index_ := 1, client_manager_port_ := 5483, local_port_ := 6000,
    pmid_ := none, bootstrap_endpoints_ := [] }

/-! ### Blocking requests of the worker -/

/-- What a request transport reports to its two signals: a received frame
(`on_message_received`) or an error code (`on_error`). -/
inductive TransportEvent where
  | message (message : String)
  | error (code : Int)
  deriving DecidableEq, Repr

/-- Parsed `protobuf::SendEndpointToClientManagerResponse`. -/
structure SendEndpointToClientManagerResponse where
  result : Bool
  deriving DecidableEq, Repr

/-- The two locals `done` and `success` that the completion lambdas of `GetBootstrapNodes`
and `SendEndpointToClientManager` write. -/
structure Completion where
  done : Bool
  success : Bool
  deriving DecidableEq, Repr

/-- The completion lambda of `GetBootstrapNodes` and of `SendEndpointToClientManager`, run
for every callback invocation in `actions`: `done = true; success = result;`. -/
def Completion.record (c : Completion) (actions : List VaultAction) : Completion :=
  actions.foldl
    (fun c a =>
      match a with
      | VaultAction.callback result => { done := true, success := result }
      | VaultAction.stop_callback => c)
    c

/-- Translation of `VaultController::HandleSendEndpointToClientManagerResponse`. The
generated parser of the response is a parameter; the handler touches no member. -/
def HandleSendEndpointToClientManagerResponse (w : Wire)
    (parse : String → Option SendEndpointToClientManagerResponse) (message : String) :
    List VaultAction :=
  match w.UnwrapMessage message with
  | none => [VaultAction.callback false]
  | some (_, payload) =>
    match parse payload with
    | none => [VaultAction.callback false]
    | some send_endpoint_response => [VaultAction.callback send_endpoint_response.result]

/-- The two slots connected by `SendEndpointToClientManager`: a received frame goes to
`HandleSendEndpointToClientManagerResponse`, an error code to `callback(false)`. -/
def sendEndpointSlots (w : Wire) (parse : String → Option SendEndpointToClientManagerResponse) :
    TransportEvent → List VaultAction
  | TransportEvent.message message => HandleSendEndpointToClientManagerResponse w parse message
  | TransportEvent.error _ => [VaultAction.callback false]

/-- The two slots connected by `GetBootstrapNodes`, applied to the members and to the
caller's vector: a received frame goes to `HandleBootstrapResponse`, an error code to
`callback(false)`. -/
def bootstrapSlots (w : Wire) (v : VaultController) (bootstrap_endpoints : List UdpEndpoint) :
    TransportEvent → VaultController × List UdpEndpoint × List VaultAction
  | TransportEvent.message message => HandleBootstrapResponse w v message bootstrap_endpoints
  | TransportEvent.error _ => (v, bootstrap_endpoints, [VaultAction.callback false])

/-- The wait of `GetBootstrapNodes`, whose predicate is `done`; see `awaitSendEndpoint`. -/
def awaitBootstrap (w : Wire) :
    VaultController → List UdpEndpoint → Completion → List TransportEvent →
      VaultController × List UdpEndpoint × Completion
  | v, out, c, [] => (v, out, c)
  | v, out, c, e :: es =>
    if c.done then (v, out, c)
    else
      let r := bootstrapSlots w v out e
      awaitBootstrap w r.1 r.2.1 (c.record r.2.2) es

/-- Translation of `VaultController::GetBootstrapNodes`: the returned boolean, the members and
the caller's vector after the call. -/
def GetBootstrapNodes (w : Wire) (kSuccess : Int) (v : VaultController)
    (bootstrap_endpoints : List UdpEndpoint) (connect_result : Int)
    (events : List TransportEvent) : Bool × VaultController × List UdpEndpoint :=
  if connect_result ≠ kSuccess then
    (false, v, bootstrap_endpoints)
  else
    let r := awaitBootstrap w v bootstrap_endpoints { done := false, success := false } events
    if !r.2.2.done then (false, r.1, r.2.1) else (r.2.2.success, r.1, r.2.1)

/-- The wait of `RequestVaultIdentity`, whose predicate is `static_cast<bool>(pmid_)`: the
waiter returns as soon as the identity is present, or at the bound. A received frame goes to
`HandleVaultIdentityResponse`; when that handler throws, the exception unwinds on the
transport's thread and the members stay as they were. An error code is only logged. -/
def awaitIdentity (w : Wire) : VaultController → List TransportEvent → VaultController
  | v, [] => v
  | v, e :: es =>
    if v.pmid_.isSome then v
    else
      match e with
      | TransportEvent.message message =>
        match HandleVaultIdentityResponse w v message with
        | some v1 => awaitIdentity w v1 es
        | none => awaitIdentity w v es
      | TransportEvent.error _ => awaitIdentity w v es

/-- The locals `done` and `success` after every event of the list has reached the slots of
`SendEndpointToClientManager`, with no waiter involved. -/
def recordSendEndpoint (w : Wire) (parse : String → Option SendEndpointToClientManagerResponse)
    (c : Completion) (events : List TransportEvent) : Completion :=
  events.foldl (fun c e => c.record (sendEndpointSlots w parse e)) c

/-- Sample parser of the send-endpoint response: `ok` carries a true result, `no` a false
one, and any other payload does not parse. -/
def sampleParseSendEndpoint (s : String) : Option SendEndpointToClientManagerResponse :=
  if s = "ok" then some { result := true }
  else if s = "no" then some { result := false }
  else none

/-- Sample envelope decoder extended with `E<payload>`, a send-endpoint response (tag 12). -/
def sampleEndpointWire : Wire :=
  { sampleWire with
    UnwrapMessage := fun message =>
      match message.data with
      | 'E' :: payload => some (MessageType.kOther 12, String.mk payload)
      | _ => sampleUnwrapMessage message }

end client_manager

/-! ## Envelope codec and process identifier (`maidsafe::priv::lifestuff_manager::detail`)

`utils.h` declares these functions; their definitions are outside the translated files. -/

namespace priv

namespace lifestuff_manager

/-- Modelled from the spec: the enumeration `MessageType`, which `utils.h` only declares.
Its enumerators are the fourteen message types of the specification's message type set. -/
inductive MessageType where
  | kHelloFromClient
  | kHelloResponseToClient
  | kStartRequestFromClient
  | kStartResponseToClient
  | kVaultIdentityRequest
  | kVaultIdentityResponse
  | kVaultJoinedNetwork
  | kVaultJoinedNetworkAck
  | kBootstrapRequest
  | kBootstrapResponse
  | kSendEndpointRequest
  | kSendEndpointResponse
  | kVaultShutdownRequest
  | kVaultShutdownResponse
  deriving DecidableEq, Repr

/-- Modelled from the spec: the type tag of a message type, a small integer; the tags are 1
to 14 in the order of the message type set (the specification leaves the values open). -/
def MessageType.tag : MessageType → Fin 256
  | MessageType.kHelloFromClient => 1
  | MessageType.kHelloResponseToClient => 2
  | MessageType.kStartRequestFromClient => 3
  | MessageType.kStartResponseToClient => 4
  | MessageType.kVaultIdentityRequest => 5
  | MessageType.kVaultIdentityResponse => 6
  | MessageType.kVaultJoinedNetwork => 7
  | MessageType.kVaultJoinedNetworkAck => 8
  | MessageType.kBootstrapRequest => 9
  | MessageType.kBootstrapResponse => 10
  | MessageType.kSendEndpointRequest => 11
  | MessageType.kSendEndpointResponse => 12
  | MessageType.kVaultShutdownRequest => 13
  | MessageType.kVaultShutdownResponse => 14

/-- Modelled from the spec: the message type of a tag; `none` for a tag outside the known
set, which the codec rejects. -/
def MessageType.ofTag (tag : Fin 256) : Option MessageType :=
  match tag.val with
  | 1 => some MessageType.kHelloFromClient
  | 2 => some MessageType.kHelloResponseToClient
  | 3 => some MessageType.kStartRequestFromClient
  | 4 => some MessageType.kStartResponseToClient
  | 5 => some MessageType.kVaultIdentityRequest
  | 6 => some MessageType.kVaultIdentityResponse
  | 7 => some MessageType.kVaultJoinedNetwork
  | 8 => some MessageType.kVaultJoinedNetworkAck
  | 9 => some MessageType.kBootstrapRequest
  | 10 => some MessageType.kBootstrapResponse
  | 11 => some MessageType.kSendEndpointRequest
  | 12 => some MessageType.kSendEndpointResponse
  | 13 => some MessageType.kVaultShutdownRequest
  | 14 => some MessageType.kVaultShutdownResponse
  | _ => none

namespace detail

/-- Modelled from the spec: the length field of a frame. The specification calls the
messages length-framed and puts no bound on the payload, so the length is written in
base 128, least significant group first, with the top bit of a byte set when another byte
follows. `fuel` bounds the number of bytes. -/
def encodeLengthFrom : Nat → Nat → List (Fin 256)
  | 0, _ => []
  | fuel + 1, n =>
    if h : n < 128 then [⟨n, by omega⟩]
    else ⟨n % 128 + 128, by omega⟩ :: encodeLengthFrom fuel (n / 128)

/-- Modelled from the spec: the length field of a payload of `n` bytes. -/
def encodeLength (n : Nat) : List (Fin 256) :=
  encodeLengthFrom (n + 1) n

/-- Modelled from the spec: reading the length field back; the result is the length and the
bytes that follow the field, or `none` when the bytes end inside the field. -/
def decodeLength : List (Fin 256) → Option (Nat × List (Fin 256))
  | [] => none
  | b :: rest =>
    if b.val < 128 then some (b.val, rest)
    else
      match decodeLength rest with
      | none => none
      | some (n, rest1) => some (b.val - 128 + 128 * n, rest1)

/-- Modelled from the spec: `WrapMessage`, declared in `utils.h`. It produces a
self-describing frame for a message type and a payload: the type tag, the length of the
payload, the payload. It always succeeds. -/
def WrapMessage (message_type : MessageType) (payload : List (Fin 256)) : List (Fin 256) :=
  message_type.tag :: (encodeLength payload.length ++ payload)

/-- Modelled from the spec: `UnwrapMessage`, declared in `utils.h`. It fails (`none`, the
`false` return value) when the type tag is missing or unrecognised, when the bytes end
inside the length field, or when the payload that follows has not the announced length, so
that it cannot be separated from the tag; otherwise it yields the type and the payload. -/
def UnwrapMessage (wrapped_message : List (Fin 256)) : Option (MessageType × List (Fin 256)) :=
  match wrapped_message with
  | [] => none
  | tag :: rest =>
    match MessageType.ofTag tag with
    | none => none
    | some message_type =>
      match decodeLength rest with
      | none => none
      | some (n, payload) => if payload.length = n then some (message_type, payload) else none

/-- Modelled from the spec: the character of a decimal digit. -/
def digitChar (d : Nat) : Char :=
  Char.ofNat (48 + d)

/-- Modelled from the spec: the decimal digits of `n`, most significant first, put in front
of `tail`. `fuel` bounds the number of digits. -/
def decimalFrom : Nat → Nat → List Char → List Char
  | 0, _, tail => tail
  | fuel + 1, n, tail =>
    if n < 10 then digitChar n :: tail
    else decimalFrom fuel (n / 10) (digitChar (n % 10) :: tail)

/-- Modelled from the spec: the decimal numeral of `n`. -/
def toDecimal (n : Nat) : List Char :=
  decimalFrom (n + 1) n []

/-- Modelled from the spec: the value of a decimal numeral; `none` for the empty string and
for a string with a character that is not a digit. -/
def parseNumeral (numeral : List Char) : Option Nat :=
  if numeral = [] then none else parseDigits numeral 0

/-- Modelled from the spec: the two fields of a hyphen-separated identifier, split at its
first hyphen; `none` when there is no hyphen. -/
def splitAtHyphen : List Char → Option (List Char × List Char)
  | [] => none
  | c :: rest =>
    if c = '-' then some ([], rest)
    else
      match splitAtHyphen rest with
      | none => none
      | some (first, second) => some (c :: first, second)

/-- Modelled from the spec: `GenerateVmidParameter`, declared in `utils.h`. The process
identifier string has the hyphen-separated form `<index>-<port>`, both fields in decimal. -/
def GenerateVmidParameter (process_index : Nat) (lifestuff_manager_port : Nat) : String :=
  String.mk (toDecimal process_index ++ '-' :: toDecimal lifestuff_manager_port)

/-- Modelled from the spec: `ParseVmidParameter`, declared in `utils.h`. It parses the
identifier into a process index (32-bit unsigned) and the manager's port (16-bit
unsigned); `none` is the `false` return value for a malformed identifier. -/
def ParseVmidParameter (lifestuff_manager_identifier : String) : Option (Nat × Nat) :=
  match splitAtHyphen lifestuff_manager_identifier.data with
  | none => none
  | some (index, port) =>
    match parseNumeral index, parseNumeral port with
    | some process_index, some lifestuff_manager_port =>
      if process_index < 4294967296 ∧ lifestuff_manager_port < 65536 then
        some (process_index, lifestuff_manager_port)
      else none
    | _, _ => none

end detail

end lifestuff_manager

end priv

/-! ## Process supervisor (`maidsafe::ProcessManager`)

The translated files hold only the supervisor's tests (`process_test.cc`); its operations
are outside them. -/

/-- Modelled from the spec: the process descriptor (`maidsafe::Process`), a process name and
an ordered list of arguments. A descriptor is valid when its name is not empty. -/
structure Process where
  name : String
  args : List String
  deriving DecidableEq, Repr

/-- Modelled from the spec: the lifecycle state of a process record. -/
inductive ProcessState where
  | Added
  | Running
  | Sleeping
  | Killed
  | Died
  deriving DecidableEq, Repr

/-- Modelled from the spec: a supervisor-owned process record, with its identifier, the
owning descriptor and the current state. The handle of the operating-system process is
not modelled. -/
structure ProcessRecord where
  id : Nat
  process : Process
  state : ProcessState
  deriving DecidableEq, Repr

/-- Modelled from the spec: the supervisor's table, in order of registration, and the last
identifier it has allocated (identifiers are never reused and records never removed). -/
structure ProcessManager where
  processes : List ProcessRecord
  last_id : Nat
  deriving DecidableEq, Repr

/-- Modelled from the spec: a supervisor that has registered nothing. -/
def ProcessManager.fresh : ProcessManager :=
  { processes := [], last_id := 0 }

/-- Modelled from the spec: `AddProcess` rejects a descriptor with an empty name (`none`,
table unchanged); otherwise it allocates the next identifier, stores the record in state
`Added` and returns the identifier. -/
def AddProcess (m : ProcessManager) (process : Process) : ProcessManager × Option Nat :=
  if process.name = "" then
    (m, none)
  else
    let id := m.last_id + 1
    ({ processes := m.processes ++ [{ id := id, process := process, state := ProcessState.Added }],
       last_id := id }, some id)

/-- Modelled from the spec: the transition of the record with identifier `id` from state
`current` to state `next`; `none` when the identifier is unknown or the record is not in
state `current`. -/
def transition (id : Nat) (current next : ProcessState) :
    List ProcessRecord → Option (List ProcessRecord)
  | [] => none
  | r :: rest =>
    if r.id = id then
      if r.state = current then some ({ r with state := next } :: rest) else none
    else
      match transition id current next rest with
      | none => none
      | some rest1 => some (r :: rest1)

/-- Modelled from the spec: `StartProcess` fails, changing nothing, if the identifier is
unknown or the record is not in `Added`; otherwise the process is launched and the record
moves to `Running`. The boolean tells whether the operation succeeded. -/
def StartProcess (m : ProcessManager) (id : Nat) : ProcessManager × Bool :=
  match transition id ProcessState.Added ProcessState.Running m.processes with
  | none => (m, false)
  | some processes => ({ m with processes := processes }, true)

/-- Modelled from the spec: `KillProcess` fails, changing nothing, if the identifier is
unknown or the record is not `Running`; otherwise the process is terminated and the record
moves to `Killed`. -/
def KillProcess (m : ProcessManager) (id : Nat) : ProcessManager × Bool :=
  match transition id ProcessState.Running ProcessState.Killed m.processes with
  | none => (m, false)
  | some processes => ({ m with processes := processes }, true)

/-- Modelled from the spec: `LetProcessDie` fails if the identifier is unknown; otherwise it
waits until the process has exited on its own and the record moves from `Running` to
`Died`, the only transition into `Died` that the data model has. A record that is not
`Running` has no process to wait for and is left as it is. -/
def LetProcessDie (m : ProcessManager) (id : Nat) : ProcessManager × Bool :=
  match transition id ProcessState.Running ProcessState.Died m.processes with
  | none => (m, false)
  | some processes => ({ m with processes := processes }, true)

/-- Modelled from the spec: `NumberOfProcesses`, the size of the table. -/
def NumberOfProcesses (m : ProcessManager) : Nat :=
  m.processes.length

/-- Modelled from the spec: `NumberOfLiveProcesses`, the number of records in `Running`. -/
def NumberOfLiveProcesses (m : ProcessManager) : Nat :=
  m.processes.countP fun r => r.state = ProcessState.Running

/-- Modelled from the spec: `NumberOfSleepingProcesses`, the number of records in
`Sleeping`. -/
def NumberOfSleepingProcesses (m : ProcessManager) : Nat :=
  m.processes.countP fun r => r.state = ProcessState.Sleeping

/-- A sequence of `AddProcess` calls: the supervisor after the last one and the values
returned, in order. -/
def addProcesses : ProcessManager → List Process → ProcessManager × List (Option Nat)
  | m, [] => (m, [])
  | m, process :: rest =>
    let r := AddProcess m process
    let r2 := addProcesses r.1 rest
    (r2.1, r.2 :: r2.2)

/-- The descriptor built by the tests in `process_test.cc`. -/
def dummyProcess : Process :=
  { name := "DUMMYprocess", args := ["DUMMYprocess", "--runtime", "1", "--nocrash"] }

/-! ## Update check (`maidsafe::DownloadManager`, `private/download_manager.cc`) -/

/-- The string members of `DownloadManager`. -/
structure DownloadManager where
  site_ : String
  name_ : String
  platform_ : String
  cpu_size_ : String
  current_version_ : String
  current_patchlevel_ : String
  protocol_ : String
  file_to_download_ : String
  deriving DecidableEq, Repr

/-- How a member function of `DownloadManager` ends: it returns a value, or it is left by
the `boost::bad_lexical_cast` that `lexical_cast` throws and no frame catches, or it
dereferences the end iterator of the token sequence, which the library leaves
undefined. -/
inductive Outcome (α : Type) where
  | returned (value : α)
  | bad_lexical_cast
  | past_the_end
  deriving DecidableEq, Repr

/-- The tokens of `boost::tokenizer<boost::char_separator<char>>` with the one-character
separator `sep`, read from the input while `current` holds the characters of the token
under construction, in reverse. The separator is dropped and, as is the default of
`char_separator`, so are empty tokens. -/
def tokensWith (sep : Char) : List Char → List Char → List String
  | [], current => if current = [] then [] else [String.mk current.reverse]
  | c :: rest, current =>
    if c = sep then
      if current = [] then tokensWith sep rest []
      else String.mk current.reverse :: tokensWith sep rest []
    else tokensWith sep rest (c :: current)

/-- The token sequence `tok` that `FileIsUseful` builds from `file`, with separator `_`. -/
def fileTokens (file : String) : List String :=
  tokensWith '_' file.data []

/-- Translation of `DownloadManager::FileIsUseful`. `lexical_cast` stands for
`boost::lexical_cast<uint32_t>`, with `none` for a thrown `bad_lexical_cast`. The iterator
`it` is the list of the tokens not yet read: `*it` and `*(++it)` take its head and are
past the end when it is empty. -/
def DownloadManager.FileIsUseful (lexical_cast : String → Option Nat) (d : DownloadManager)
    (file : String) : Outcome Bool :=
  match fileTokens file with
  | [] => Outcome.past_the_end
  | name :: it1 =>
    if d.name_ ≠ name then Outcome.returned false
    else
      match it1 with
      | [] => Outcome.past_the_end
      | platform :: it2 =>
        if d.platform_ ≠ platform then Outcome.returned false
        else
          match it2 with
          | [] => Outcome.past_the_end
          | cpu_size :: it3 =>
            if d.cpu_size_ ≠ cpu_size then Outcome.returned false
            else
              match it3 with
              | [] => Outcome.past_the_end
              | version_field :: it4 =>
                match lexical_cast version_field with
                | none => Outcome.bad_lexical_cast
                | some version =>
                  if d.current_version_ = "" then Outcome.returned true
                  else
                    match lexical_cast d.current_version_ with
                    | none => Outcome.bad_lexical_cast
                    | some current_version =>
                      if version < current_version then Outcome.returned false
                      else
                        match it4 with
                        | [] => Outcome.past_the_end
                        | patchlevel_field :: _ =>
                          match lexical_cast patchlevel_field with
                          | none => Outcome.bad_lexical_cast
                          | some patchlevel =>
                            if d.current_patchlevel_ = "" then Outcome.returned true
                            else
                              match lexical_cast d.current_patchlevel_ with
                              | none => Outcome.bad_lexical_cast
                              | some current_patchlevel =>
                                if patchlevel ≤ current_patchlevel then Outcome.returned false
                                else Outcome.returned true

/-- A string is a decimal numeral that fits in 32 bits. -/
def isNumeral32 (s : String) : Prop :=
  priv.sampleLexicalCast s ≠ none

/-- Sample update check: the vault for 64-bit Linux at version 3, patch level 5. -/
def sampleDownload : DownloadManager :=
  { site_ := "example.org", name_ := "vault", platform_ := "linux", cpu_size_ := "64",
    current_version_ := "3", current_patchlevel_ := "5", protocol_ := "http",
    file_to_download_ := "" }

/-! # Properties -/

namespace client_manager

/-! ## Shutdown requests -/

/-- The shutdown handler leaves the members alone and calls the stop callback exactly once,
whatever the request holds. -/
theorem HandleVaultShutdownRequest_eq (w : Wire) (v : VaultController) (request : String) :
    HandleVaultShutdownRequest w v request = (v, [VaultAction.stop_callback]) := rfl

/-- A frame that unwraps to a vault-shutdown request reaches the shutdown handler. -/
theorem HandleReceivedRequest_shutdown (w : Wire) (v : VaultController) (message payload : String)
    (hu : w.UnwrapMessage message = some (MessageType.kVaultShutdownRequest, payload)) :
    HandleReceivedRequest w v message = (v, [VaultAction.stop_callback]) := by
  simp [HandleReceivedRequest, hu, HandleVaultShutdownRequest]

/-- C2, evaluated on the code: a worker with process index 1 receives a shutdown request
whose payload parses and carries process index 2. The handler fills in a response with
`shutdown = false` and still invokes the stop callback once, both when called directly and
when the frame is delivered through `HandleReceivedRequest`. -/
theorem shutdown_mismatched_index_invokes_stop :
    sampleVault.process_index_ = 1 ∧
    sampleWire.UnwrapMessage "S2" = some (MessageType.kVaultShutdownRequest, "2") ∧
    sampleWire.parseVaultShutdownRequest "2" = some { process_index := 2 } ∧
    (vault_shutdown_response sampleWire sampleVault "2").shutdown = false ∧
    stopCount (HandleVaultShutdownRequest sampleWire sampleVault "2").2 = 1 ∧
    stopCount (HandleReceivedRequest sampleWire sampleVault "S2").2 = 1 := by
  refine ⟨rfl, ?_, ?_, ?_, ?_, ?_⟩ <;> decide

/-- Delivering a frame that unwraps to a vault-shutdown request `n` times invokes the stop
callback `n` times and leaves the members alone. -/
theorem deliverRequests_replicate (w : Wire) (v : VaultController) (message payload : String)
    (hu : w.UnwrapMessage message = some (MessageType.kVaultShutdownRequest, payload))
    (n : Nat) :
    deliverRequests w v (List.replicate n message) =
      (v, List.replicate n VaultAction.stop_callback) := by
  induction n with
  | zero => rfl
  | succ n ih =>
    simp [List.replicate_succ, deliverRequests, HandleReceivedRequest_shutdown w v message payload hu,
      ih]

/-! ## Bootstrap endpoints -/

/-- The index loop agrees with the reference `validEndpoints` on the part of the arrays that
is still to be read. -/
theorem pushEndpoints_eq (w : Wire) (ips : List String) (ports : List Nat) :
    ∀ (remaining i : Nat) (endpoints : List UdpEndpoint),
      i + remaining = min ips.length ports.length →
      pushEndpoints w ips ports i remaining endpoints =
        endpoints ++ validEndpoints w (ips.drop i) (ports.drop i) := by
  intro remaining
  induction remaining with
  | zero =>
    intro i endpoints h
    have hz : (ips.drop i).zip (ports.drop i) = [] := by
      have hd : (ips.drop i).zip (ports.drop i) = (ips.zip ports).drop i := by
        simp [List.zip, List.drop_zipWith]
      rw [hd]
      apply List.drop_of_length_le
      simp only [List.length_zip]
      omega
    simp [pushEndpoints, validEndpoints, hz]
  | succ n ih =>
    intro i endpoints h
    have hi : i < ips.length := by omega
    have hp : i < ports.length := by omega
    have h1 : ips.drop i = ips[i] :: ips.drop (i + 1) := List.drop_eq_getElem_cons hi
    have h2 : ports.drop i = ports[i] :: ports.drop (i + 1) := List.drop_eq_getElem_cons hp
    have g1 : ips.getD i "" = ips[i] := by simp [List.getD, hi]
    have g2 : ports.getD i 0 = ports[i] := by simp [List.getD, hp]
    have hv : validEndpoints w (ips.drop i) (ports.drop i) =
        (GetEndpoint w ips[i] (ports[i] % 65536)).toList ++
          validEndpoints w (ips.drop (i + 1)) (ports.drop (i + 1)) := by
      rw [h1, h2]
      unfold validEndpoints GetEndpoint
      rw [List.zip_cons_cons, List.filterMap_cons]
      cases hf : w.from_string ips[i] <;> rfl
    rw [pushEndpoints, g1, g2, hv]
    cases hg : GetEndpoint w ips[i] (ports[i] % 65536) with
    | none => simp [ih (i + 1) endpoints (by omega)]
    | some ep => simp [ih (i + 1) (endpoints ++ [ep]) (by omega)]

/-- A frame that unwraps and parses: the caller's vector and the stored list both become the
caller's vector followed by the valid endpoints, and the request completes with `true`. -/
theorem HandleBootstrapResponse_eq (w : Wire) (v : VaultController) (message payload : String)
    (type : MessageType) (response : BootstrapResponse) (out : List UdpEndpoint)
    (hu : w.UnwrapMessage message = some (type, payload))
    (hp : w.parseBootstrapResponse payload = some response) :
    HandleBootstrapResponse w v message out =
      ({ v with bootstrap_endpoints_ := (out ++ validEndpoints w response.bootstrap_endpoint_ip
            response.bootstrap_endpoint_port) },
        out ++ validEndpoints w response.bootstrap_endpoint_ip response.bootstrap_endpoint_port,
        [VaultAction.callback true]) := by
  have h := pushEndpoints_eq w response.bootstrap_endpoint_ip response.bootstrap_endpoint_port
    (min response.bootstrap_endpoint_ip.length response.bootstrap_endpoint_port.length) 0 out
    (by simp)
  simp only [List.drop_zero] at h
  simp [HandleBootstrapResponse, hu, hp, h]

/-- The number of valid endpoints is the number of pairs whose IP address parses. -/
theorem validEndpoints_length (w : Wire) (ips : List String) (ports : List Nat) :
    (validEndpoints w ips ports).length =
      (ips.zip ports).countP fun p => (w.from_string p.1).isSome := by
  unfold validEndpoints
  induction ips.zip ports with
  | nil => rfl
  | cons p ps ih =>
    cases hf : w.from_string p.1 <;> simp [List.filterMap_cons, List.countP_cons, hf, ih]

/-! ## Claims about the worker identity agent -/

/-- C3, as stated, fails on the code: a worker with process index 1 that receives the same
well-formed shutdown request for index 1 twice invokes the stop callback twice, not once. -/
theorem shutdown_delivered_twice_invokes_stop_twice :
    sampleWire.UnwrapMessage "S1" = some (MessageType.kVaultShutdownRequest, "1") ∧
    sampleWire.parseVaultShutdownRequest "1" =
      some { process_index := sampleVault.process_index_ } ∧
    stopCount (deliverRequests sampleWire sampleVault ["S1", "S1"]).2 = 2 ∧
    ¬ stopCount (deliverRequests sampleWire sampleVault ["S1", "S1"]).2 = 1 := by
  refine ⟨?_, ?_, ?_, ?_⟩ <;> decide

/-- C3, amended: delivering a well-formed shutdown request addressed to the worker's own
process index `n` times through `HandleReceivedRequest` invokes the stop callback exactly
`n` times, once per delivery, and leaves the members of the worker unchanged. -/
theorem shutdown_invokes_stop_once_per_delivery (w : Wire) (v : VaultController)
    (message payload : String) (n : Nat)
    (hu : w.UnwrapMessage message = some (MessageType.kVaultShutdownRequest, payload))
    (hp : w.parseVaultShutdownRequest payload = some { process_index := v.process_index_ }) :
    (vault_shutdown_response w v payload).shutdown = true ∧
    stopCount (deliverRequests w v (List.replicate n message)).2 = n ∧
    (deliverRequests w v (List.replicate n message)).1 = v := by
  refine ⟨?_, ?_, ?_⟩
  · simp [vault_shutdown_response, hp]
  · rw [deliverRequests_replicate w v message payload hu n]
    simp [stopCount]
  · rw [deliverRequests_replicate w v message payload hu n]

/-- Witness of the amended C3 on two deliveries to the sample worker. -/
theorem shutdown_invokes_stop_once_per_delivery_witness :
    stopCount (deliverRequests sampleWire sampleVault (List.replicate 2 "S1")).2 = 2 :=
  (shutdown_invokes_stop_once_per_delivery sampleWire sampleVault "S1" "1" 2
    (by decide) (by decide)).2.1

/-- C4, evaluated on the code: the frame `S?` unwraps to a vault-shutdown request whose
payload does not parse. `HandleReceivedRequest` leaves the members unchanged, fills in a
response with `shutdown = false`, and invokes the stop callback once instead of dropping
the message. -/
theorem unparsable_shutdown_invokes_stop :
    sampleWire.UnwrapMessage "S?" = some (MessageType.kVaultShutdownRequest, "?") ∧
    sampleWire.parseVaultShutdownRequest "?" = none ∧
    (vault_shutdown_response sampleWire sampleVault "?").shutdown = false ∧
    (HandleReceivedRequest sampleWire sampleVault "S?").1 = sampleVault ∧
    stopCount (HandleReceivedRequest sampleWire sampleVault "S?").2 = 1 := by
  refine ⟨?_, ?_, ?_, ?_, ?_⟩ <;> decide

/-- The two cases of C4 that the code does drop: a frame that fails to unwrap, or whose
envelope type is not the vault-shutdown request, changes nothing and calls nothing. -/
theorem HandleReceivedRequest_drops (w : Wire) (v : VaultController) (message : String)
    (h : w.UnwrapMessage message = none ∨
      ∃ type payload, w.UnwrapMessage message = some (type, payload) ∧
        type ≠ MessageType.kVaultShutdownRequest) :
    HandleReceivedRequest w v message = (v, []) := by
  rcases h with h | ⟨type, payload, h, ht⟩
  · simp [HandleReceivedRequest, h]
  · cases type <;> simp_all [HandleReceivedRequest]

/-- C9: for a bootstrap response that unwraps and parses, with `N` pairs whose IP address
is valid and `M` pairs whose IP address is malformed, `HandleBootstrapResponse` leaves in
the caller's vector its previous content followed by exactly the `N` valid endpoints, in
the order of the response, and completes the request with `callback(true)`, called once. -/
theorem HandleBootstrapResponse_appends_valid_endpoints (w : Wire) (v : VaultController)
    (message payload : String) (type : MessageType) (response : BootstrapResponse)
    (out : List UdpEndpoint) (N M : Nat)
    (hu : w.UnwrapMessage message = some (type, payload))
    (hp : w.parseBootstrapResponse payload = some response)
    (hN : ((response.bootstrap_endpoint_ip.zip response.bootstrap_endpoint_port).countP
      fun p => (w.from_string p.1).isSome) = N)
    (hM : ((response.bootstrap_endpoint_ip.zip response.bootstrap_endpoint_port).countP
      fun p => (w.from_string p.1).isNone) = M) :
    (HandleBootstrapResponse w v message out).2.1 =
      out ++ validEndpoints w response.bootstrap_endpoint_ip response.bootstrap_endpoint_port ∧
    (validEndpoints w response.bootstrap_endpoint_ip response.bootstrap_endpoint_port).length
      = N ∧
    (HandleBootstrapResponse w v message out).2.1.length = out.length + N ∧
    (response.bootstrap_endpoint_ip.zip response.bootstrap_endpoint_port).length = N + M ∧
    (HandleBootstrapResponse w v message out).2.2 = [VaultAction.callback true] := by
  have hlen := validEndpoints_length w response.bootstrap_endpoint_ip
    response.bootstrap_endpoint_port
  rw [HandleBootstrapResponse_eq w v message payload type response out hu hp]
  refine ⟨rfl, ?_, ?_, ?_, rfl⟩
  · rw [hlen, hN]
  · simp only [List.length_append, hlen, hN]
  · rw [← hN, ← hM]
    have := List.length_eq_countP_add_countP
      (fun p : String × Nat => (w.from_string p.1).isSome)
      (response.bootstrap_endpoint_ip.zip response.bootstrap_endpoint_port)
    rw [this]
    congr 1
    apply List.countP_congr
    intro p _
    cases w.from_string p.1 <;> simp

/-- Witness of C9: the sample response `Bmixed` carries two valid pairs around one pair with
a malformed IP address; the caller's vector already holds one endpoint. -/
theorem HandleBootstrapResponse_appends_valid_endpoints_witness :
    (HandleBootstrapResponse sampleWire sampleVault "Bmixed"
      [{ address := { text := "10.0.0.9" }, port := 9 }]).2.1 =
      [{ address := { text := "10.0.0.9" }, port := 9 },
       { address := { text := "10.0.0.2" }, port := 5002 },
       { address := { text := "10.0.0.3" }, port := 5004 }] ∧
    (HandleBootstrapResponse sampleWire sampleVault "Bmixed"
      [{ address := { text := "10.0.0.9" }, port := 9 }]).2.2 = [VaultAction.callback true] := by
  have h := HandleBootstrapResponse_appends_valid_endpoints sampleWire sampleVault "Bmixed"
    "mixed" (MessageType.kOther 10)
    { bootstrap_endpoint_ip := ["10.0.0.2", "not-an-ip", "10.0.0.3"],
      bootstrap_endpoint_port := [5002, 5003, 5004] }
    [{ address := { text := "10.0.0.9" }, port := 9 }] 2 1
    (by decide) (by decide) (by decide) (by decide)
  exact ⟨h.1.trans (by decide), h.2.2.2.2⟩

/-- C10, as stated, fails on the code: the identity response `Iid` leaves the stored list
`L = [10.0.0.1:5001]`; a later successful bootstrap response `Bone` with one valid pair,
handled with an empty caller vector, leaves `[10.0.0.2:5002]` in the stored list, which is
not `L` followed by the new endpoint and is not longer than `L`. -/
theorem stored_bootstrap_list_overwritten :
    ∃ v1, HandleVaultIdentityResponse sampleWire sampleVault "Iid" = some v1 ∧
      v1.bootstrap_endpoints_ = [{ address := { text := "10.0.0.1" }, port := 5001 }] ∧
      (HandleBootstrapResponse sampleWire v1 "Bone" []).2.2 = [VaultAction.callback true] ∧
      (HandleBootstrapResponse sampleWire v1 "Bone" []).1.bootstrap_endpoints_ =
        [{ address := { text := "10.0.0.2" }, port := 5002 }] ∧
      (HandleBootstrapResponse sampleWire v1 "Bone" []).1.bootstrap_endpoints_ ≠
        v1.bootstrap_endpoints_ ++ [{ address := { text := "10.0.0.2" }, port := 5002 }] ∧
      ¬ (HandleBootstrapResponse sampleWire v1 "Bone" []).1.bootstrap_endpoints_.length =
        v1.bootstrap_endpoints_.length + 1 := by
  refine ⟨{ sampleVault with
    pmid_ := some { name := "pmid" }
    bootstrap_endpoints_ := [{ address := { text := "10.0.0.1" }, port := 5001 }] },
    ?_, ?_, ?_, ?_, ?_, ?_⟩ <;> decide

/-- C10, amended: after a successful `HandleBootstrapResponse` carrying `n` valid endpoint
pairs the stored list is the previous content of the caller-supplied vector followed by
those `n` endpoints (length `|out| + n`), whatever the stored list held before. -/
theorem stored_bootstrap_list_is_caller_vector (w : Wire) (v : VaultController)
    (message payload : String) (type : MessageType) (response : BootstrapResponse)
    (out : List UdpEndpoint) (n : Nat)
    (hu : w.UnwrapMessage message = some (type, payload))
    (hp : w.parseBootstrapResponse payload = some response)
    (hn : ((response.bootstrap_endpoint_ip.zip response.bootstrap_endpoint_port).countP
      fun p => (w.from_string p.1).isSome) = n) :
    (HandleBootstrapResponse w v message out).1.bootstrap_endpoints_ =
      out ++ validEndpoints w response.bootstrap_endpoint_ip response.bootstrap_endpoint_port ∧
    (HandleBootstrapResponse w v message out).1.bootstrap_endpoints_.length = out.length + n ∧
    (HandleBootstrapResponse w v message out).1.bootstrap_endpoints_ =
      (HandleBootstrapResponse w v message out).2.1 := by
  have hlen := validEndpoints_length w response.bootstrap_endpoint_ip
    response.bootstrap_endpoint_port
  rw [HandleBootstrapResponse_eq w v message payload type response out hu hp]
  refine ⟨rfl, ?_, rfl⟩
  simp only [List.length_append, hlen, hn]

/-- Witness of the amended C10: a stored list of one endpoint, a caller vector holding a
different endpoint, and the sample response `Bone`. -/
theorem stored_bootstrap_list_is_caller_vector_witness :
    (HandleBootstrapResponse sampleWire
      { sampleVault with
        bootstrap_endpoints_ := [{ address := { text := "10.0.0.1" }, port := 5001 }] }
      "Bone" [{ address := { text := "10.0.0.9" }, port := 9 }]).1.bootstrap_endpoints_ =
      [{ address := { text := "10.0.0.9" }, port := 9 },
       { address := { text := "10.0.0.2" }, port := 5002 }] :=
  (stored_bootstrap_list_is_caller_vector sampleWire _ "Bone" "one" (MessageType.kOther 10)
    { bootstrap_endpoint_ip := ["10.0.0.2"], bootstrap_endpoint_port := [5002] }
    [{ address := { text := "10.0.0.9" }, port := 9 }] 1
    (by decide) (by decide) (by decide)).1.trans (by decide)

end client_manager

/-! ## Claims about the client handshake agent -/

namespace priv

/-- C8: a frame whose sender is not `127.0.0.1` is dropped by `HandleIncomingMessage`,
for every message type, payload and callback: the state and the port cursor are unchanged
and no action is performed (no probe is sent, the callback is not invoked). -/
theorem HandleIncomingMessage_drops_non_loopback (vm : VaultManager) (ser : Serialisation)
    (c : ClientController) (type : VaultManagerMessageType) (payload : String) (info : Info)
    (callback : Bool) (h : info.endpoint.ip ≠ "127.0.0.1") :
    HandleIncomingMessage vm ser c type payload info callback = (c, []) := by
  simp [HandleIncomingMessage, h]

/-- Witness of C8: a valid hello response sent from `192.168.0.7` to a controller that is
still probing. -/
theorem HandleIncomingMessage_drops_non_loopback_witness :
    HandleIncomingMessage sampleVaultManager sampleSerialisation
      { port_ := 5483, state_ := State.kInitialising }
      VaultManagerMessageType.kHelloResponseToClient "hello response"
      { endpoint := { ip := "192.168.0.7", port := 5483 } } true =
      ({ port_ := 5483, state_ := State.kInitialising }, []) :=
  HandleIncomingMessage_drops_non_loopback sampleVaultManager sampleSerialisation _ _ _
    { endpoint := { ip := "192.168.0.7", port := 5483 } } true (by decide)

/-! ### The blocking wrapper -/

/-- `ConnectToManager` never invokes a completion callback. -/
theorem callbacksOf_ConnectToManager (vm : VaultManager) (c : ClientController) :
    callbacksOf (ConnectToManager vm c).2 = [] := by
  simp only [ConnectToManager]
  split_ifs <;> rfl

/-- `ConnectToManagerCallback` never invokes a completion callback. -/
theorem callbacksOf_ConnectToManagerCallback (vm : VaultManager) (ser : Serialisation)
    (c : ClientController) (payload : String) (info : Info) :
    callbacksOf (ConnectToManagerCallback vm ser c payload info).2 = [] := by
  unfold ConnectToManagerCallback
  split
  · exact callbacksOf_ConnectToManager vm c
  · split
    · exact callbacksOf_ConnectToManager vm c
    · rfl

/-- The callback invocations in a concatenation. -/
theorem callbacksOf_append (xs ys : List Action) :
    callbacksOf (xs ++ ys) = callbacksOf xs ++ callbacksOf ys := by
  simp [callbacksOf, List.filterMap_append]

/-- On a channel with a completion callback, one event invokes the callback at most once,
with the value given by `ChannelEvent.completes`. -/
theorem callbacksOf_deliver (vm : VaultManager) (ser : Serialisation) (c : ClientController)
    (e : ChannelEvent) :
    callbacksOf (e.deliver vm ser c true).2 = (e.completes ser).toList := by
  cases e with
  | error =>
    simp [ChannelEvent.deliver, OnSendError, ChannelEvent.completes, callbacksOf_append,
      callbacksOf_ConnectToManager]
    rfl
  | messageReceived type payload sender =>
    by_cases hip : sender.endpoint.ip = "127.0.0.1"
    · cases type with
      | kHelloResponseToClient =>
        simp [ChannelEvent.deliver, HandleIncomingMessage, ChannelEvent.completes, hip,
          callbacksOf_append, callbacksOf_ConnectToManagerCallback]
        rfl
      | kStartResponseToClient =>
        simp only [ChannelEvent.deliver, HandleIncomingMessage, ChannelEvent.completes, hip,
          StartVaultRequestCallback]
        cases ser.parseClientStartVaultResponse payload <;> simp <;> rfl
      | kHelloFromClient =>
        simp [ChannelEvent.deliver, HandleIncomingMessage, ChannelEvent.completes, hip]
        rfl
      | kStartRequestFromClient =>
        simp [ChannelEvent.deliver, HandleIncomingMessage, ChannelEvent.completes, hip]
        rfl
      | kOther tag =>
        simp [ChannelEvent.deliver, HandleIncomingMessage, ChannelEvent.completes, hip]
        rfl
    · simp [ChannelEvent.deliver, HandleIncomingMessage, ChannelEvent.completes, hip]
      rfl

/-- First call of `ConnectToManager`, made by the constructor: the probe goes to `kMinPort`. -/
theorem ConnectToManager_fresh (vm : VaultManager)
    (hle : vm.kMinPort ≤ vm.kMaxPort) (hmax : vm.kMaxPort < 65536) :
    ConnectToManager vm ClientController.fresh =
      ({ port_ := vm.kMinPort, state_ := State.kInitialising },
        [Action.sendHello vm.kMinPort]) := by
  have h1 : vm.kMinPort % 65536 = vm.kMinPort := Nat.mod_eq_of_lt (by omega)
  have h2 : ¬ vm.kMinPort > vm.kMaxPort := by omega
  simp [ConnectToManager, ClientController.fresh, h1, h2]

/-- A retry below the top of the range: the cursor moves up by one and the probe goes to the
new cursor. -/
theorem ConnectToManager_advance (vm : VaultManager) (p : Nat) (hp : 0 < p)
    (hlt : p + 1 ≤ vm.kMaxPort) (hmax : vm.kMaxPort < 65536) :
    ConnectToManager vm { port_ := p, state_ := State.kInitialising } =
      ({ port_ := p + 1, state_ := State.kInitialising }, [Action.sendHello (p + 1)]) := by
  have h0 : p ≠ 0 := by omega
  have h1 : (p + 1) % 65536 = p + 1 := Nat.mod_eq_of_lt (by omega)
  have h2 : ¬ p + 1 > vm.kMaxPort := by omega
  simp [ConnectToManager, h0, h1, h2]

/-- A retry at the top of the range: the state becomes `kFailed` and nothing is sent. -/
theorem ConnectToManager_exhausted (vm : VaultManager) (hpos : 0 < vm.kMaxPort)
    (hmax : vm.kMaxPort + 1 < 65536) :
    ConnectToManager vm { port_ := vm.kMaxPort, state_ := State.kInitialising } =
      ({ port_ := vm.kMaxPort + 1, state_ := State.kFailed }, [Action.notify_all]) := by
  have h0 : vm.kMaxPort ≠ 0 := by omega
  have h1 : (vm.kMaxPort + 1) % 65536 = vm.kMaxPort + 1 := Nat.mod_eq_of_lt hmax
  simp [ConnectToManager, h0, h1]

/-- A transport error on a probe channel is a retry. -/
theorem deliver_error (vm : VaultManager) (ser : Serialisation) (c : ClientController) :
    ChannelEvent.error.deliver vm ser c false = ConnectToManager vm c := by
  simp [ChannelEvent.deliver, OnSendError]

/-- A malformed hello response from the loopback address on a probe channel is a retry. -/
theorem deliver_malformed_hello (vm : VaultManager) (ser : Serialisation)
    (c : ClientController) (payload : String) (sender : Info)
    (hip : sender.endpoint.ip = "127.0.0.1") (hbad : malformedHello ser payload) :
    (ChannelEvent.messageReceived VaultManagerMessageType.kHelloResponseToClient payload
      sender).deliver vm ser c false = ConnectToManager vm c := by
  unfold malformedHello at hbad
  simp only [ChannelEvent.deliver, HandleIncomingMessage, hip, ConnectToManagerCallback]
  cases hparse : ser.parseClientHelloResponse payload with
  | none => simp
  | some response =>
    rw [hparse] at hbad
    simp [hbad]

/-- A valid hello response from the loopback address verifies the session and records the
sender's port. -/
theorem deliver_valid_hello (vm : VaultManager) (ser : Serialisation) (c : ClientController)
    (payload : String) (port : Nat)
    (hparse : ser.parseClientHelloResponse payload = some { hello_response := "hello response" }) :
    (ChannelEvent.messageReceived VaultManagerMessageType.kHelloResponseToClient payload
      { endpoint := { ip := "127.0.0.1", port := port } }).deliver vm ser c false =
      ({ port_ := port, state_ := State.kVerified }, [Action.notify_all]) := by
  simp [ChannelEvent.deliver, HandleIncomingMessage, ConnectToManagerCallback, hparse]

/-- With no probe outstanding the discovery loop has stopped. -/
theorem runDiscovery_nil (vm : VaultManager) (ser : Serialisation) (env : Nat → ChannelEvent)
    (fuel : Nat) (c : ClientController) (log : List Action) :
    runDiscovery vm ser env fuel c [] log = (c, log) := by
  cases fuel <;> rfl

/-- The probes in a concatenation. -/
theorem probesOf_append (xs ys : List Action) :
    probesOf (xs ++ ys) = probesOf xs ++ probesOf ys := by
  simp [probesOf, List.filterMap_append]

/-- The probes in a list of hello probes. -/
theorem probesOf_map_sendHello (ports : List Nat) :
    probesOf (ports.map Action.sendHello) = ports := by
  induction ports with
  | nil => rfl
  | cons p ps ih =>
    simp only [List.map_cons]
    rw [show Action.sendHello p :: ps.map Action.sendHello =
      [Action.sendHello p] ++ ps.map Action.sendHello from rfl, probesOf_append, ih]
    rfl

/-- While every probe ends in a retry, `k` outcomes move the cursor up by `k` ports, with one
probe outstanding at every step. -/
theorem runDiscovery_retries (vm : VaultManager) (ser : Serialisation)
    (env : Nat → ChannelEvent) (hmax : vm.kMaxPort < 65536) :
    ∀ (k p fuel : Nat) (log : List Action), 0 < p → p + k ≤ vm.kMaxPort →
      (∀ q, p ≤ q → q < p + k → ∀ c, (env q).deliver vm ser c false = ConnectToManager vm c) →
      runDiscovery vm ser env (k + fuel) { port_ := p, state_ := State.kInitialising } [p] log =
        runDiscovery vm ser env fuel { port_ := p + k, state_ := State.kInitialising } [p + k]
          (log ++ (List.range' (p + 1) k).map Action.sendHello) := by
  intro k
  induction k with
  | zero =>
    intro p fuel log _ _ _
    simp
  | succ k ih =>
    intro p fuel log hp hle henv
    have hstep := henv p (Nat.le_refl p) (by omega) { port_ := p, state_ := State.kInitialising }
    rw [ConnectToManager_advance vm p hp (by omega) hmax] at hstep
    rw [show k + 1 + fuel = (k + fuel) + 1 by omega]
    simp only [runDiscovery, hstep]
    have hprobe : probesOf [Action.sendHello (p + 1)] = [p + 1] := rfl
    rw [hprobe, List.nil_append]
    rw [ih (p + 1) fuel (log ++ [Action.sendHello (p + 1)]) (by omega) (by omega)
      (fun q h1 h2 => henv q (by omega) (by omega))]
    have hr : List.range' (p + 1) (k + 1) = (p + 1) :: List.range' (p + 1 + 1) k := by
      simp [List.range'_succ]
    rw [hr, show p + 1 + k = p + (k + 1) by omega]
    simp [List.append_assoc]

/-- The discovery run after `k` retries, counted from the constructor. -/
theorem discover_retries (vm : VaultManager) (ser : Serialisation) (env : Nat → ChannelEvent)
    (hmin : 0 < vm.kMinPort) (hmax : vm.kMaxPort < 65536) (k fuel : Nat)
    (hle : vm.kMinPort + k ≤ vm.kMaxPort)
    (henv : ∀ q, vm.kMinPort ≤ q → q < vm.kMinPort + k →
      ∀ c, (env q).deliver vm ser c false = ConnectToManager vm c) :
    discover vm ser env (k + fuel) =
      runDiscovery vm ser env fuel { port_ := vm.kMinPort + k, state_ := State.kInitialising }
        [vm.kMinPort + k] ((List.range' vm.kMinPort (k + 1)).map Action.sendHello) := by
  unfold discover
  rw [ConnectToManager_fresh vm (by omega) hmax]
  have hprobe : probesOf [Action.sendHello vm.kMinPort] = [vm.kMinPort] := rfl
  simp only [hprobe]
  rw [runDiscovery_retries vm ser env hmax k vm.kMinPort fuel _ hmin hle henv]
  have hr : List.range' vm.kMinPort (k + 1) = vm.kMinPort :: List.range' (vm.kMinPort + 1) k := by
    simp [List.range'_succ]
  rw [hr]
  simp

/-- C5: with a manager listening on port `P` of the range (every probe to another port ends
in a transport error, the probe to `P` is answered from `127.0.0.1:P` by a hello response
whose payload parses to the text `hello response`), a fresh controller stays in
`kInitialising` while fewer than `P - kMinPort + 1` outcomes have been delivered, and from
then on is in state `kVerified` with recorded port `P`, having sent exactly the probes to
`kMinPort, ..., P` in increasing order: `P - kMinPort + 1` probes, at most
`kMaxPort - kMinPort + 1`. -/
theorem discover_finds_manager (vm : VaultManager) (ser : Serialisation)
    (env : Nat → ChannelEvent) (P : Nat) (payload : String)
    (hmin : 0 < vm.kMinPort) (hmax : vm.kMaxPort < 65536)
    (hP1 : vm.kMinPort ≤ P) (hP2 : P ≤ vm.kMaxPort)
    (herr : ∀ q, q ≠ P → env q = ChannelEvent.error)
    (hreply : env P = ChannelEvent.messageReceived VaultManagerMessageType.kHelloResponseToClient
      payload { endpoint := { ip := "127.0.0.1", port := P } })
    (hparse : ser.parseClientHelloResponse payload =
      some { hello_response := "hello response" }) :
    (∀ fuel, fuel < P - vm.kMinPort + 1 →
      (discover vm ser env fuel).1.state_ = State.kInitialising) ∧
    (∀ fuel, P - vm.kMinPort + 1 ≤ fuel →
      (discover vm ser env fuel).1 = { port_ := P, state_ := State.kVerified } ∧
      probesOf (discover vm ser env fuel).2 = List.range' vm.kMinPort (P - vm.kMinPort + 1) ∧
      (probesOf (discover vm ser env fuel).2).length = P - vm.kMinPort + 1) ∧
    P - vm.kMinPort + 1 ≤ vm.kMaxPort - vm.kMinPort + 1 := by
  have henv : ∀ k, vm.kMinPort + k ≤ P → ∀ q, vm.kMinPort ≤ q → q < vm.kMinPort + k →
      ∀ c, (env q).deliver vm ser c false = ConnectToManager vm c := by
    intro k hk q _ h2 c
    rw [herr q (by omega)]
    exact deliver_error vm ser c
  refine ⟨?_, ?_, by omega⟩
  · intro fuel hfuel
    have h := discover_retries vm ser env hmin hmax fuel 0 (by omega) (henv fuel (by omega))
    rw [Nat.add_zero] at h
    rw [h]
    rfl
  · intro fuel hfuel
    obtain ⟨rest, hrest⟩ : ∃ rest, fuel = (P - vm.kMinPort) + (rest + 1) :=
      ⟨fuel - (P - vm.kMinPort) - 1, by omega⟩
    have h := discover_retries vm ser env hmin hmax (P - vm.kMinPort) (rest + 1) (by omega)
      (henv (P - vm.kMinPort) (by omega))
    have hPeq : vm.kMinPort + (P - vm.kMinPort) = P := by omega
    rw [hPeq] at h
    rw [hrest, h]
    simp only [runDiscovery, hreply, deliver_valid_hello vm ser _ payload P hparse]
    have hnone : probesOf [Action.notify_all] = [] := rfl
    rw [hnone, List.append_nil, runDiscovery_nil]
    simp only [probesOf_append, probesOf_map_sendHello, hnone, List.append_nil,
      List.length_range']
    exact ⟨trivial, trivial, trivial⟩

/-- Witness of C5: the sample range `5483..5485` with the manager on port 5484; after two
outcomes the controller is verified on port 5484 and has probed 5483 and 5484. -/
theorem discover_finds_manager_witness :
    (discover sampleVaultManager sampleSerialisation sampleListening 2).1 =
      { port_ := 5484, state_ := State.kVerified } ∧
    probesOf (discover sampleVaultManager sampleSerialisation sampleListening 2).2 =
      [5483, 5484] := by
  have h := (discover_finds_manager sampleVaultManager sampleSerialisation sampleListening
    5484 "hello response" (by decide) (by decide) (by decide) (by decide)
    (by intro q hq; simp [sampleListening, hq]) (by rfl) (by decide)).2.1 2 (by decide)
  exact ⟨h.1, h.2.1.trans (by decide)⟩

/-- C6: when every probe ends in a transport error or in a malformed hello response from
the loopback address, a fresh controller is in `kInitialising` as long as fewer than
`kMaxPort - kMinPort + 1` outcomes have been delivered, having sent one more probe than
outcomes delivered, to `kMinPort, kMinPort + 1, ...` in increasing order; the call of
`ConnectToManager` that follows the last of these probes sets the state to `kFailed` and
sends nothing; and from then on the controller is `kFailed`, having sent exactly the
`kMaxPort - kMinPort + 1` probes to `kMinPort, ..., kMaxPort`. -/
theorem discover_gives_up (vm : VaultManager) (ser : Serialisation)
    (env : Nat → ChannelEvent)
    (hmin : 0 < vm.kMinPort) (hle : vm.kMinPort ≤ vm.kMaxPort) (hmax : vm.kMaxPort + 1 < 65536)
    (hsilent : ∀ q, env q = ChannelEvent.error ∨
      ∃ payload sender, env q = ChannelEvent.messageReceived
        VaultManagerMessageType.kHelloResponseToClient payload sender ∧
        sender.endpoint.ip = "127.0.0.1" ∧ malformedHello ser payload) :
    (∀ fuel, fuel < vm.kMaxPort - vm.kMinPort + 1 →
      (discover vm ser env fuel).1.state_ = State.kInitialising ∧
      probesOf (discover vm ser env fuel).2 = List.range' vm.kMinPort (fuel + 1)) ∧
    ConnectToManager vm (discover vm ser env (vm.kMaxPort - vm.kMinPort)).1 =
      ({ port_ := vm.kMaxPort + 1, state_ := State.kFailed }, [Action.notify_all]) ∧
    (∀ fuel, vm.kMaxPort - vm.kMinPort + 1 ≤ fuel →
      (discover vm ser env fuel).1.state_ = State.kFailed ∧
      probesOf (discover vm ser env fuel).2 =
        List.range' vm.kMinPort (vm.kMaxPort - vm.kMinPort + 1) ∧
      (probesOf (discover vm ser env fuel).2).length = vm.kMaxPort - vm.kMinPort + 1) := by
  have henv : ∀ q c, (env q).deliver vm ser c false = ConnectToManager vm c := by
    intro q c
    rcases hsilent q with h | ⟨payload, sender, h, hip, hbad⟩
    · rw [h]; exact deliver_error vm ser c
    · rw [h]; exact deliver_malformed_hello vm ser c payload sender hip hbad
  have hearly : ∀ fuel, fuel ≤ vm.kMaxPort - vm.kMinPort →
      discover vm ser env fuel =
        ({ port_ := vm.kMinPort + fuel, state_ := State.kInitialising },
          (List.range' vm.kMinPort (fuel + 1)).map Action.sendHello) := by
    intro fuel hfuel
    have h := discover_retries vm ser env hmin (by omega) fuel 0 (by omega)
      (fun q _ _ c => henv q c)
    rw [Nat.add_zero] at h
    rw [h]
    rfl
  have htop : vm.kMinPort + (vm.kMaxPort - vm.kMinPort) = vm.kMaxPort := by omega
  refine ⟨?_, ?_, ?_⟩
  · intro fuel hfuel
    rw [hearly fuel (by omega)]
    exact ⟨rfl, probesOf_map_sendHello _⟩
  · rw [hearly _ (Nat.le_refl _), htop]
    exact ConnectToManager_exhausted vm (by omega) hmax
  · intro fuel hfuel
    obtain ⟨rest, hrest⟩ : ∃ rest, fuel = (vm.kMaxPort - vm.kMinPort) + (rest + 1) :=
      ⟨fuel - (vm.kMaxPort - vm.kMinPort) - 1, by omega⟩
    have h := discover_retries vm ser env hmin (by omega) (vm.kMaxPort - vm.kMinPort)
      (rest + 1) (by omega) (fun q _ _ c => henv q c)
    rw [htop] at h
    rw [hrest, h]
    simp only [runDiscovery, henv, ConnectToManager_exhausted vm (by omega) hmax]
    have hnone : probesOf [Action.notify_all] = [] := rfl
    rw [hnone, List.append_nil, runDiscovery_nil]
    simp only [probesOf_append, probesOf_map_sendHello, hnone, List.append_nil,
      List.length_range']
    exact ⟨trivial, trivial, trivial⟩

/-- Witness of C6: the sample range `5483..5485` with no manager; after three outcomes the
controller has failed and has probed the three ports in order. -/
theorem discover_gives_up_witness :
    (discover sampleVaultManager sampleSerialisation sampleSilent 3).1.state_ = State.kFailed ∧
    probesOf (discover sampleVaultManager sampleSerialisation sampleSilent 3).2 =
      [5483, 5484, 5485] := by
  have h := (discover_gives_up sampleVaultManager sampleSerialisation sampleSilent
    (by decide) (by decide) (by decide)
    (by
      intro q
      by_cases hq : q = 5484
      · right
        refine ⟨"garbage", loopback 5484, ?_, rfl, ?_⟩
        · simp [sampleSilent, hq]
        · simp [malformedHello, sampleSerialisation]
      · left
        simp [sampleSilent, hq])).2.2 3 (by decide)
  exact ⟨h.1, h.2.1.trans (by decide)⟩

/-! ### The probe range -/

/-- One call of `ConnectToManager` keeps the cursor invariant (while the state is
`kInitialising` the cursor is 0 or a port of the range) and probes only inside the range. -/
theorem ConnectToManager_range (vm : VaultManager) (hmin : vm.kMinPort < 65536)
    (hmax : vm.kMaxPort + 1 < 65536) (c : ClientController)
    (hc : c.state_ = State.kInitialising →
      c.port_ = 0 ∨ (vm.kMinPort ≤ c.port_ ∧ c.port_ ≤ vm.kMaxPort)) :
    ((ConnectToManager vm c).1.state_ = State.kInitialising →
      (ConnectToManager vm c).1.port_ = 0 ∨
        (vm.kMinPort ≤ (ConnectToManager vm c).1.port_ ∧
          (ConnectToManager vm c).1.port_ ≤ vm.kMaxPort)) ∧
    ∀ p ∈ probesOf (ConnectToManager vm c).2, vm.kMinPort ≤ p ∧ p ≤ vm.kMaxPort := by
  have h1 : vm.kMinPort % 65536 = vm.kMinPort := Nat.mod_eq_of_lt hmin
  by_cases hs : c.state_ = State.kInitialising
  · have hinit : ¬ c.state_ ≠ State.kInitialising := fun h => h hs
    by_cases h0 : c.port_ = 0
    · by_cases hgt : vm.kMinPort > vm.kMaxPort
      · simp [ConnectToManager, hs, h0, h1, hgt, probesOf]
      · rw [ConnectToManager, if_neg hinit]
        simp only [h0, if_true, h1, if_neg hgt, probesOf, List.filterMap_cons,
          List.filterMap_nil, List.mem_singleton]
        refine ⟨fun _ => Or.inr ⟨Nat.le_refl _, by omega⟩, ?_⟩
        intro p hp
        subst hp
        exact ⟨Nat.le_refl _, by omega⟩
    · have hr : vm.kMinPort ≤ c.port_ ∧ c.port_ ≤ vm.kMaxPort := by
        rcases hc hs with h | h
        · exact absurd h h0
        · exact h
      have h2 : (c.port_ + 1) % 65536 = c.port_ + 1 := Nat.mod_eq_of_lt (by omega)
      by_cases hgt : c.port_ + 1 > vm.kMaxPort
      · simp [ConnectToManager, hs, h0, h2, hgt, probesOf]
      · rw [ConnectToManager, if_neg hinit]
        simp only [h0, if_false, h2, if_neg hgt, probesOf, List.filterMap_cons,
          List.filterMap_nil, List.mem_singleton]
        refine ⟨fun _ => Or.inr ⟨by omega, by omega⟩, ?_⟩
        intro p hp
        subst hp
        exact ⟨by omega, by omega⟩
  · simp [ConnectToManager, hs, probesOf]

/-- Appending a callback invocation adds no probe. -/
theorem probesOf_append_callback (xs : List Action) (result : Bool) :
    probesOf (xs ++ [Action.callback result]) = probesOf xs := by
  rw [probesOf_append]
  simp [probesOf]

/-- One event keeps the cursor invariant and probes only inside the range. -/
theorem Event_apply_range (vm : VaultManager) (ser : Serialisation)
    (hmin : vm.kMinPort < 65536) (hmax : vm.kMaxPort + 1 < 65536) (c : ClientController)
    (e : Event)
    (hc : c.state_ = State.kInitialising →
      c.port_ = 0 ∨ (vm.kMinPort ≤ c.port_ ∧ c.port_ ≤ vm.kMaxPort)) :
    ((e.apply vm ser c).1.state_ = State.kInitialising →
      (e.apply vm ser c).1.port_ = 0 ∨
        (vm.kMinPort ≤ (e.apply vm ser c).1.port_ ∧ (e.apply vm ser c).1.port_ ≤ vm.kMaxPort)) ∧
    ∀ p ∈ probesOf (e.apply vm ser c).2, vm.kMinPort ≤ p ∧ p ≤ vm.kMaxPort := by
  have hconn := ConnectToManager_range vm hmin hmax c hc
  have hsame : (c.state_ = State.kInitialising →
      c.port_ = 0 ∨ (vm.kMinPort ≤ c.port_ ∧ c.port_ ≤ vm.kMaxPort)) ∧
      ∀ p ∈ probesOf ([] : List Action), vm.kMinPort ≤ p ∧ p ≤ vm.kMaxPort :=
    ⟨hc, by simp [probesOf]⟩
  cases e with
  | connectToManager => exact hconn
  | channel ev callback =>
    cases ev with
    | error =>
      cases callback
      · simpa [Event.apply, ChannelEvent.deliver, OnSendError] using hconn
      · simpa [Event.apply, ChannelEvent.deliver, OnSendError, probesOf_append_callback]
          using hconn
    | messageReceived type payload sender =>
      by_cases hip : sender.endpoint.ip = "127.0.0.1"
      · have hcb : ((ConnectToManagerCallback vm ser c payload sender).1.state_ =
              State.kInitialising →
            (ConnectToManagerCallback vm ser c payload sender).1.port_ = 0 ∨
              (vm.kMinPort ≤ (ConnectToManagerCallback vm ser c payload sender).1.port_ ∧
                (ConnectToManagerCallback vm ser c payload sender).1.port_ ≤ vm.kMaxPort)) ∧
            ∀ p ∈ probesOf (ConnectToManagerCallback vm ser c payload sender).2,
              vm.kMinPort ≤ p ∧ p ≤ vm.kMaxPort := by
          unfold ConnectToManagerCallback
          split
          · exact hconn
          · split
            · exact hconn
            · simp [probesOf]
        cases type with
        | kHelloResponseToClient =>
          cases callback
          · simpa [Event.apply, ChannelEvent.deliver, HandleIncomingMessage, hip] using hcb
          · simpa [Event.apply, ChannelEvent.deliver, HandleIncomingMessage, hip,
              probesOf_append_callback] using hcb
        | kStartResponseToClient =>
          cases callback
          · simpa [Event.apply, ChannelEvent.deliver, HandleIncomingMessage, hip,
              StartVaultRequestCallback] using hsame
          · cases hparse : ser.parseClientStartVaultResponse payload <;>
              simpa [Event.apply, ChannelEvent.deliver, HandleIncomingMessage, hip,
                StartVaultRequestCallback, hparse, probesOf] using hc
        | kHelloFromClient =>
          simpa [Event.apply, ChannelEvent.deliver, HandleIncomingMessage, hip] using hsame
        | kStartRequestFromClient =>
          simpa [Event.apply, ChannelEvent.deliver, HandleIncomingMessage, hip] using hsame
        | kOther tag =>
          simpa [Event.apply, ChannelEvent.deliver, HandleIncomingMessage, hip] using hsame
      · simpa [Event.apply, ChannelEvent.deliver, HandleIncomingMessage, hip] using hsame

/-- A sequence of events keeps the cursor invariant and probes only inside the range. -/
theorem runEvents_range (vm : VaultManager) (ser : Serialisation)
    (hmin : vm.kMinPort < 65536) (hmax : vm.kMaxPort + 1 < 65536) :
    ∀ (events : List Event) (c : ClientController),
      (c.state_ = State.kInitialising →
        c.port_ = 0 ∨ (vm.kMinPort ≤ c.port_ ∧ c.port_ ≤ vm.kMaxPort)) →
      ∀ p ∈ probesOf (runEvents vm ser c events).2, vm.kMinPort ≤ p ∧ p ≤ vm.kMaxPort := by
  intro events
  induction events with
  | nil =>
    intro c _ p hp
    simp [runEvents, probesOf] at hp
  | cons e es ih =>
    intro c hc p hp
    have hstep := Event_apply_range vm ser hmin hmax c e hc
    simp only [runEvents, probesOf_append, List.mem_append] at hp
    rcases hp with hp | hp
    · exact hstep.2 p hp
    · exact ih _ hstep.1 p hp

/-- C7: from a fresh controller, along every sequence of `ConnectToManager` calls,
transport errors and inbound messages, every hello probe goes to a port `p` with
`kMinPort ≤ p ≤ kMaxPort`. The cursor is a 16-bit unsigned integer whose increment wraps;
the two constants are 16-bit values and `kMaxPort` is not the largest of them. -/
theorem probes_stay_in_range (vm : VaultManager) (ser : Serialisation)
    (hmin : vm.kMinPort < 65536) (hmax : vm.kMaxPort + 1 < 65536)
    (events : List Event) (p : Nat)
    (hp : p ∈ probesOf (runEvents vm ser ClientController.fresh events).2) :
    vm.kMinPort ≤ p ∧ p ≤ vm.kMaxPort :=
  runEvents_range vm ser hmin hmax events ClientController.fresh (fun _ => Or.inl rfl) p hp

/-- Witness of C7: on the sample range, the constructor's call followed by four transport
errors sends the probes 5483, 5484 and 5485 and then stops; the last probe is in range. -/
theorem probes_stay_in_range_witness :
    probesOf (runEvents sampleVaultManager sampleSerialisation ClientController.fresh
      [Event.connectToManager, Event.channel ChannelEvent.error false,
       Event.channel ChannelEvent.error false, Event.channel ChannelEvent.error false,
       Event.channel ChannelEvent.error false]).2 = [5483, 5484, 5485] ∧
    sampleVaultManager.kMinPort ≤ 5485 ∧ 5485 ≤ sampleVaultManager.kMaxPort :=
  ⟨by decide,
    probes_stay_in_range sampleVaultManager sampleSerialisation (by decide) (by decide)
      [Event.connectToManager, Event.channel ChannelEvent.error false,
       Event.channel ChannelEvent.error false, Event.channel ChannelEvent.error false,
       Event.channel ChannelEvent.error false] 5485 (by decide)⟩

end priv

/-! ## Responses to the worker's own requests -/

namespace client_manager

end client_manager

/-! ## Completion of a blocking request -/

namespace priv

/-- The completion lambda of `StartVault` after one more callback invocation. -/
theorem Completion_record_callback (w : Completion) (result : Bool) :
    w.record [Action.callback result] = { done := true, local_result := result } := rfl

/-- What the handlers of the request channel leave in the locals of `StartVault` for one
event: the value it reports, if it reports. -/
theorem Completion_record_deliver (vm : VaultManager) (ser : Serialisation)
    (c : ClientController) (w : Completion) (e : ChannelEvent) :
    w.record (e.deliver vm ser c true).2 =
      match e.completes ser with
      | some result => { done := true, local_result := result }
      | none => w := by
  have hcb := callbacksOf_deliver vm ser c e
  cases hc : e.completes ser with
  | none => rw [hc] at hcb; simp [Completion.record, hcb]
  | some result => rw [hc] at hcb; simp [Completion.record, hcb]

/-- The locals of `StartVault` after a whole sequence of events: the last event that
reports decides. -/
theorem recordAll_eq (vm : VaultManager) (ser : Serialisation) :
    ∀ (events : List ChannelEvent) (c : ClientController) (w : Completion),
      recordAll vm ser c w events =
        match (events.filterMap (ChannelEvent.completes ser)).getLast? with
        | some result => { done := true, local_result := result }
        | none => w := by
  intro events
  induction events with
  | nil => intro c w; rfl
  | cons e es ih =>
    intro c w
    simp only [recordAll, ih, Completion_record_deliver, List.filterMap_cons]
    cases hc : e.completes ser with
    | none => rfl
    | some result =>
      simp only [List.getLast?_cons]
      cases (es.filterMap (ChannelEvent.completes ser)).getLast? <;> rfl

end priv

namespace client_manager

/-- The completion lambda of the worker's requests after a sequence of callback
invocations that ends with `result`. -/
theorem Completion_record_last (c : Completion) (results : List Bool) (result : Bool) :
    c.record ((results ++ [result]).map VaultAction.callback) =
      { done := true, success := result } := by
  simp [Completion.record, List.foldl_append]

/-- Every event on the transport of `SendEndpointToClientManager` invokes the completion
callback exactly once. -/
theorem sendEndpointSlots_once (w : Wire)
    (parse : String → Option SendEndpointToClientManagerResponse) (e : TransportEvent) :
    ∃ result, sendEndpointSlots w parse e = [VaultAction.callback result] := by
  cases e with
  | error code => exact ⟨false, rfl⟩
  | message message =>
    simp only [sendEndpointSlots, HandleSendEndpointToClientManagerResponse]
    cases hu : w.UnwrapMessage message with
    | none => exact ⟨false, rfl⟩
    | some tp =>
      obtain ⟨type, payload⟩ := tp
      cases hp : parse payload with
      | none => exact ⟨false, by simp [hp]⟩
      | some r => exact ⟨r.result, by simp [hp]⟩

/-- C12, as stated, fails on the code: on the request channel of `StartVault`, a transport
error followed by a start response with a true result leaves `(done, local_result)` at
`(true, true)`, while after the first event alone it is `(true, false)`; the same holds for
the locals of `SendEndpointToClientManager` after an error code followed by the reply
`Eok`. The later event changes the result. -/
theorem completion_overwritten_by_later_event :
    priv.recordAll priv.sampleVaultManager priv.sampleSerialisation
      { port_ := 5484, state_ := priv.State.kVerified } { done := false, local_result := false }
      [priv.ChannelEvent.error,
       priv.ChannelEvent.messageReceived priv.VaultManagerMessageType.kStartResponseToClient
         "true" (priv.loopback 5484)] = { done := true, local_result := true } ∧
    priv.recordAll priv.sampleVaultManager priv.sampleSerialisation
      { port_ := 5484, state_ := priv.State.kVerified } { done := false, local_result := false }
      [priv.ChannelEvent.error] = { done := true, local_result := false } ∧
    recordSendEndpoint sampleEndpointWire sampleParseSendEndpoint
      { done := false, success := false }
      [TransportEvent.error 1, TransportEvent.message "Eok"] =
      { done := true, success := true } ∧
    recordSendEndpoint sampleEndpointWire sampleParseSendEndpoint
      { done := false, success := false } [TransportEvent.error 1] =
      { done := true, success := false } := by
  refine ⟨?_, ?_, ?_, ?_⟩ <;> decide

/-- C12, amended: the completion callbacks of `StartVault`, `GetBootstrapNodes` and
`SendEndpointToClientManager` set `done` at the first event and overwrite the result at
every later one, so after a sequence of events `done` is true and the result is the one
reported by the last event. For the lambda of `StartVault` and for the lambda shared by the two
worker requests this holds for every sequence of callback invocations; on the request
channel of `StartVault` the last event that reports to the callback decides; on the
transport of `SendEndpointToClientManager` the locals after a non-empty sequence are those
left by its last event alone. -/
theorem completion_last_event_wins :
    (∀ (w : priv.Completion) (results : List Bool) (result : Bool),
      w.record ((results ++ [result]).map priv.Action.callback) =
        { done := true, local_result := result }) ∧
    (∀ (c : Completion) (results : List Bool) (result : Bool),
      c.record ((results ++ [result]).map VaultAction.callback) =
        { done := true, success := result }) ∧
    (∀ (vm : priv.VaultManager) (ser : priv.Serialisation) (c : priv.ClientController)
      (events : List priv.ChannelEvent),
      priv.recordAll vm ser c { done := false, local_result := false } events =
        match (events.filterMap (priv.ChannelEvent.completes ser)).getLast? with
        | some result => { done := true, local_result := result }
        | none => { done := false, local_result := false }) ∧
    (∀ (w : Wire) (parse : String → Option SendEndpointToClientManagerResponse)
      (c c0 : Completion) (events : List TransportEvent) (e : TransportEvent),
      recordSendEndpoint w parse c (events ++ [e]) = recordSendEndpoint w parse c0 [e] ∧
      (recordSendEndpoint w parse c (events ++ [e])).done = true) := by
  refine ⟨?_, Completion_record_last, ?_, ?_⟩
  · intro w results result
    simp [priv.Completion.record, priv.callbacksOf, List.filterMap_append, List.foldl_append,
      List.filterMap_map]
  · intro vm ser c events
    exact priv.recordAll_eq vm ser events c _
  · intro w parse c c0 events e
    obtain ⟨result, hr⟩ := sendEndpointSlots_once w parse e
    simp [recordSendEndpoint, List.foldl_append, hr, Completion.record]

end client_manager

/-! ## The identity request and the endpoint report -/

namespace client_manager

/-- The waiter of `RequestVaultIdentity` only ever adds an identity: if one is present at the
start it returns at once. -/
theorem awaitIdentity_of_isSome (w : Wire) (v : VaultController) (events : List TransportEvent)
    (h : v.pmid_.isSome = true) : awaitIdentity w v events = v := by
  cases events with
  | nil => rfl
  | cons e es => simp [awaitIdentity, h]

end client_manager

/-! ## Worker start-up -/

namespace priv

/-- C13, evaluated on the code: for the empty identifier `Start` logs that a process id must
be supplied and leaves through `return 1`, which a function returning `bool` reports as
`true`; no member is written and no thread is started. -/
theorem Start_empty_identifier_returns_true (lexical_cast : String → Option Nat)
    (v : VaultController) :
    Start lexical_cast v "" = some (true, v, []) := by
  simp [Start]

/-- The part of C13 that the code meets: when the identifier has at least two fields and the
second one is not a number, `Start` returns `false` and starts no thread. -/
theorem Start_second_field_not_a_number (lexical_cast : String → Option Nat)
    (v : VaultController) (pid_string first second : String) (rest : List String)
    (hne : pid_string ≠ "") (htok : tokenizer pid_string = first :: second :: rest)
    (hbad : lexical_cast second = none) :
    Start lexical_cast v pid_string = some (false, { v with process_id_ := first }, []) := by
  simp [Start, hne, htok, hbad]

/-- An identifier without a second field makes `Start` dereference the end iterator. -/
theorem Start_without_hyphen_undefined :
    tokenizer "vault" = ["vault"] ∧
    Start sampleLexicalCast VaultController.fresh "vault" = none ∧
    Start sampleLexicalCast VaultController.fresh "vault-x1" =
      some (false, { process_id_ := "vault", port_ := 0 }, []) ∧
    Start sampleLexicalCast VaultController.fresh "vault-5483" =
      some (true, { process_id_ := "vault", port_ := 5483 }, [StartAction.startThread]) := by
  refine ⟨?_, ?_, ?_, ?_⟩ <;> decide

end priv

/-! ## Envelope codec -/

namespace priv

namespace lifestuff_manager

namespace detail

/-- Every message type is recovered from its tag. -/
theorem ofTag_tag (t : MessageType) : MessageType.ofTag t.tag = some t := by
  cases t <;> rfl

/-- The length field is read back, whatever follows it. -/
theorem decodeLength_encodeLengthFrom :
    ∀ (fuel n : Nat) (rest : List (Fin 256)), n < fuel →
      decodeLength (encodeLengthFrom fuel n ++ rest) = some (n, rest) := by
  intro fuel
  induction fuel with
  | zero => intro n rest h; omega
  | succ fuel ih =>
    intro n rest h
    by_cases hn : n < 128
    · simp [encodeLengthFrom, hn, decodeLength]
    · have hdiv : n / 128 < fuel := by omega
      have hge : ¬ n % 128 + 128 < 128 := by omega
      simp only [encodeLengthFrom, hn, dite_false, List.cons_append, decodeLength, hge,
        if_false, ih (n / 128) rest hdiv]
      congr 2
      omega

/-- A length field cut short is not read. -/
theorem decodeLength_take_encodeLengthFrom :
    ∀ (fuel n j : Nat), n < fuel → j < (encodeLengthFrom fuel n).length →
      decodeLength ((encodeLengthFrom fuel n).take j) = none := by
  intro fuel
  induction fuel with
  | zero => intro n j h; omega
  | succ fuel ih =>
    intro n j h hj
    by_cases hn : n < 128
    · simp only [encodeLengthFrom, hn, dite_true, List.length_singleton] at hj ⊢
      have hj0 : j = 0 := by omega
      subst hj0
      rfl
    · have hdiv : n / 128 < fuel := by omega
      have hge : ¬ n % 128 + 128 < 128 := by omega
      simp only [encodeLengthFrom, hn, dite_false, List.length_cons] at hj ⊢
      cases j with
      | zero => rfl
      | succ j =>
        simp only [List.take_succ_cons, decodeLength, hge, if_false,
          ih (n / 128) j hdiv (by omega)]

/-- C16: envelope round trip. For every message type `t` of the message type set and every
payload byte string `p`, `UnwrapMessage (WrapMessage t p)` succeeds and yields exactly
`(t, p)`. -/
theorem UnwrapMessage_WrapMessage (t : MessageType) (p : List (Fin 256)) :
    UnwrapMessage (WrapMessage t p) = some (t, p) := by
  simp [UnwrapMessage, WrapMessage, ofTag_tag, encodeLength,
    decodeLength_encodeLengthFrom (p.length + 1) p.length p (by omega)]

/-- C17: unwrapping fails closed. A truncated frame, that is a proper prefix of the frame of
any message, does not unwrap; neither does any byte string whose type tag is outside the
known message type set, nor the empty byte string. -/
theorem UnwrapMessage_fails_closed :
    (∀ (t : MessageType) (p : List (Fin 256)) (k : Nat), k < (WrapMessage t p).length →
      UnwrapMessage ((WrapMessage t p).take k) = none) ∧
    (∀ (tag : Fin 256) (rest : List (Fin 256)), MessageType.ofTag tag = none →
      UnwrapMessage (tag :: rest) = none) ∧
    UnwrapMessage [] = none := by
  refine ⟨?_, ?_, rfl⟩
  · intro t p k hk
    cases k with
    | zero => rfl
    | succ k =>
      simp only [WrapMessage, encodeLength, List.length_cons, List.length_append] at hk
      simp only [WrapMessage, encodeLength, List.take_succ_cons, UnwrapMessage, ofTag_tag]
      by_cases hlen : k < (encodeLengthFrom (p.length + 1) p.length).length
      · rw [List.take_append_of_le_length (by omega),
          decodeLength_take_encodeLengthFrom (p.length + 1) p.length k (by omega) hlen]
      · rw [List.take_append_eq_append_take, List.take_of_length_le (by omega),
          decodeLength_encodeLengthFrom (p.length + 1) p.length _ (by omega)]
        have hne : ¬ (p.take (k - (encodeLengthFrom (p.length + 1) p.length).length)).length =
            p.length := by
          rw [List.length_take]
          omega
        simp only [if_neg hne]
  · intro tag rest h
    simp [UnwrapMessage, h]

/-- Witness of C17: the frame of a hello message with a two-byte payload is five bytes long;
its first three bytes do not unwrap, and neither does a frame whose tag is 200. -/
theorem UnwrapMessage_fails_closed_witness :
    UnwrapMessage ((WrapMessage MessageType.kHelloFromClient [104, 105]).take 3) = none ∧
    UnwrapMessage (200 :: [2, 104, 105]) = none :=
  ⟨UnwrapMessage_fails_closed.1 MessageType.kHelloFromClient [104, 105] 3 (by decide),
    UnwrapMessage_fails_closed.2.1 200 [2, 104, 105] (by decide)⟩

end detail

end lifestuff_manager

end priv

/-! ## Process identifier -/

namespace priv

namespace lifestuff_manager

namespace detail

/-- A digit character is read back as its digit. -/
theorem digitValue_digitChar (d : Nat) (h : d < 10) : digitValue (digitChar d) = some d := by
  interval_cases d <;> decide

/-- A digit character is not a hyphen. -/
theorem digitChar_ne_hyphen (d : Nat) (h : d < 10) : digitChar d ≠ '-' := by
  interval_cases d <;> decide

/-- Reading the digits of `n` from value 0 and then `tail` is reading `tail` from value
`n`. -/
theorem parseDigits_decimalFrom :
    ∀ (fuel n : Nat) (tail : List Char), n < fuel →
      parseDigits (decimalFrom fuel n tail) 0 = parseDigits tail n := by
  intro fuel
  induction fuel with
  | zero => intro n tail h; omega
  | succ fuel ih =>
    intro n tail h
    by_cases hn : n < 10
    · simp [decimalFrom, hn, parseDigits, digitValue_digitChar n hn]
    · have hdiv : n / 10 < fuel := by omega
      have hmod : n % 10 < 10 := Nat.mod_lt _ (by omega)
      simp only [decimalFrom, hn, if_false, ih (n / 10) _ hdiv, parseDigits,
        digitValue_digitChar (n % 10) hmod]
      congr 1
      omega

/-- The digits of a number hold no hyphen. -/
theorem decimalFrom_no_hyphen :
    ∀ (fuel n : Nat) (tail : List Char), (∀ c ∈ tail, c ≠ '-') →
      ∀ c ∈ decimalFrom fuel n tail, c ≠ '-' := by
  intro fuel
  induction fuel with
  | zero => intro n tail h; exact h
  | succ fuel ih =>
    intro n tail h
    by_cases hn : n < 10
    · simp only [decimalFrom, hn, if_true]
      intro c hc
      rcases List.mem_cons.mp hc with hc | hc
      · rw [hc]; exact digitChar_ne_hyphen n hn
      · exact h c hc
    · have hmod : n % 10 < 10 := Nat.mod_lt _ (by omega)
      simp only [decimalFrom, hn, if_false]
      apply ih
      intro c hc
      rcases List.mem_cons.mp hc with hc | hc
      · rw [hc]; exact digitChar_ne_hyphen (n % 10) hmod
      · exact h c hc

/-- A decimal numeral is not empty. -/
theorem decimalFrom_ne_nil :
    ∀ (fuel n : Nat) (tail : List Char), (0 < fuel ∨ tail ≠ []) →
      decimalFrom fuel n tail ≠ [] := by
  intro fuel
  induction fuel with
  | zero =>
    intro n tail h
    rcases h with h | h
    · omega
    · exact h
  | succ fuel ih =>
    intro n tail _
    by_cases hn : n < 10
    · simp [decimalFrom, hn]
    · simp only [decimalFrom, hn, if_false]
      exact ih _ _ (Or.inr (by simp))

/-- The numeral of `n` is read back as `n`. -/
theorem parseNumeral_toDecimal (n : Nat) : parseNumeral (toDecimal n) = some n := by
  unfold parseNumeral toDecimal
  rw [if_neg (decimalFrom_ne_nil (n + 1) n [] (Or.inl (by omega))),
    parseDigits_decimalFrom (n + 1) n [] (by omega)]
  rfl

/-- Splitting at the first hyphen returns a hyphen-free first field and the rest. -/
theorem splitAtHyphen_append (first second : List Char) (h : ∀ c ∈ first, c ≠ '-') :
    splitAtHyphen (first ++ '-' :: second) = some (first, second) := by
  induction first with
  | nil => simp [splitAtHyphen]
  | cons c cs ih =>
    have hc : c ≠ '-' := h c (List.mem_cons_self c cs)
    have ih1 := ih (fun d hd => h d (List.mem_cons_of_mem c hd))
    simp [splitAtHyphen, hc, ih1]

/-- C18: process identifier round trip. For every process index `i` that fits in 32 bits and
every manager port `p` that fits in 16 bits, `ParseVmidParameter (GenerateVmidParameter i p)`
succeeds and yields exactly `(i, p)`; the generated string is the decimal numeral of `i`,
a hyphen, and the decimal numeral of `p`, and neither numeral holds a hyphen. -/
theorem ParseVmidParameter_GenerateVmidParameter (i p : Nat) (hi : i < 4294967296)
    (hp : p < 65536) :
    ParseVmidParameter (GenerateVmidParameter i p) = some (i, p) ∧
    (GenerateVmidParameter i p).data = toDecimal i ++ '-' :: toDecimal p ∧
    parseNumeral (toDecimal i) = some i ∧ parseNumeral (toDecimal p) = some p ∧
    (∀ c ∈ toDecimal i, c ≠ '-') ∧ (∀ c ∈ toDecimal p, c ≠ '-') := by
  have hni : ∀ c ∈ toDecimal i, c ≠ '-' :=
    decimalFrom_no_hyphen (i + 1) i [] (by simp)
  have hnp : ∀ c ∈ toDecimal p, c ≠ '-' :=
    decimalFrom_no_hyphen (p + 1) p [] (by simp)
  refine ⟨?_, rfl, parseNumeral_toDecimal i, parseNumeral_toDecimal p, hni, hnp⟩
  simp [ParseVmidParameter, GenerateVmidParameter, splitAtHyphen_append _ _ hni,
    parseNumeral_toDecimal, hi, hp]

/-- Witness of C18: process index 7 and manager port 5483 give the identifier `7-5483`. -/
theorem ParseVmidParameter_GenerateVmidParameter_witness :
    GenerateVmidParameter 7 5483 = "7-5483" ∧
    ParseVmidParameter (GenerateVmidParameter 7 5483) = some (7, 5483) :=
  ⟨by decide,
    (ParseVmidParameter_GenerateVmidParameter 7 5483 (by decide) (by decide)).1⟩

end detail

end lifestuff_manager

end priv

/-! ## Process supervisor -/

/-- A run of `AddProcess` calls with valid descriptors appends one record per call and
returns consecutive identifiers. -/
theorem addProcesses_valid :
    ∀ (descriptors : List Process) (m : ProcessManager),
      (∀ p ∈ descriptors, p.name ≠ "") →
      (addProcesses m descriptors).2 =
        (List.range' (m.last_id + 1) descriptors.length).map some ∧
      (addProcesses m descriptors).1.last_id = m.last_id + descriptors.length ∧
      (addProcesses m descriptors).1.processes.length =
        m.processes.length + descriptors.length := by
  intro descriptors
  induction descriptors with
  | nil => intro m _; simp [addProcesses]
  | cons p ps ih =>
    intro m h
    have hp : p.name ≠ "" := h p (List.mem_cons_self p ps)
    have hadd : AddProcess m p =
        ({ processes := m.processes ++
            [{ id := m.last_id + 1, process := p, state := ProcessState.Added }],
           last_id := m.last_id + 1 }, some (m.last_id + 1)) := by
      simp [AddProcess, hp]
    obtain ⟨h1, h2, h3⟩ := ih (AddProcess m p).1 (fun q hq => h q (List.mem_cons_of_mem p hq))
    rw [hadd] at h1 h2 h3
    dsimp only at h1 h2 h3
    simp only [List.length_append, List.length_singleton] at h3
    simp only [addProcesses, hadd, List.length_cons]
    refine ⟨?_, ?_, ?_⟩
    · rw [h1]
      simp [List.range'_succ]
    · rw [h2]
      omega
    · rw [h3]
      omega

/-- C19: on a fresh supervisor, which reports 0 processes, every sequence of `AddProcess`
calls with valid descriptors returns identifiers that are positive and strictly
increasing, and `NumberOfProcesses` then equals the number of calls. -/
theorem AddProcess_identifiers_increase (descriptors : List Process)
    (hvalid : ∀ p ∈ descriptors, p.name ≠ "") :
    NumberOfProcesses ProcessManager.fresh = 0 ∧
    NumberOfProcesses (addProcesses ProcessManager.fresh descriptors).1 = descriptors.length ∧
    ∃ ids : List Nat,
      (addProcesses ProcessManager.fresh descriptors).2 = ids.map some ∧
      ids.length = descriptors.length ∧
      (∀ id ∈ ids, 0 < id) ∧
      ids.Pairwise (· < ·) := by
  obtain ⟨h1, _, h3⟩ := addProcesses_valid descriptors ProcessManager.fresh hvalid
  refine ⟨rfl, ?_, List.range' 1 descriptors.length, ?_, ?_, ?_, ?_⟩
  · simpa [NumberOfProcesses, ProcessManager.fresh] using h3
  · simpa [ProcessManager.fresh] using h1
  · simp
  · intro id hid
    have := (List.mem_range'_1.mp hid).1
    omega
  · exact List.pairwise_lt_range' 1 descriptors.length

/-- Witness of C19: the test descriptor added three times. -/
theorem AddProcess_identifiers_increase_witness :
    (addProcesses ProcessManager.fresh [dummyProcess, dummyProcess, dummyProcess]).2 =
      [some 1, some 2, some 3] ∧
    NumberOfProcesses
      (addProcesses ProcessManager.fresh [dummyProcess, dummyProcess, dummyProcess]).1 = 3 :=
  ⟨by decide,
    (AddProcess_identifiers_increase [dummyProcess, dummyProcess, dummyProcess]
      (by decide)).2.1⟩

/-- C20: for a valid descriptor on a fresh supervisor, `AddProcess` returns identifier 1;
after `StartProcess` on it `NumberOfLiveProcesses` is 1; after a subsequent `LetProcessDie`
or `KillProcess` on it, each of which succeeds, `NumberOfLiveProcesses` is 0,
`NumberOfSleepingProcesses` is 0 and `NumberOfProcesses` is still 1. -/
theorem start_then_die_or_kill (p : Process) (hvalid : p.name ≠ "") :
    (AddProcess ProcessManager.fresh p).2 = some 1 ∧
    (StartProcess (AddProcess ProcessManager.fresh p).1 1).2 = true ∧
    NumberOfLiveProcesses (StartProcess (AddProcess ProcessManager.fresh p).1 1).1 = 1 ∧
    NumberOfProcesses (StartProcess (AddProcess ProcessManager.fresh p).1 1).1 = 1 ∧
    (LetProcessDie (StartProcess (AddProcess ProcessManager.fresh p).1 1).1 1).2 = true ∧
    NumberOfLiveProcesses
      (LetProcessDie (StartProcess (AddProcess ProcessManager.fresh p).1 1).1 1).1 = 0 ∧
    NumberOfSleepingProcesses
      (LetProcessDie (StartProcess (AddProcess ProcessManager.fresh p).1 1).1 1).1 = 0 ∧
    NumberOfProcesses
      (LetProcessDie (StartProcess (AddProcess ProcessManager.fresh p).1 1).1 1).1 = 1 ∧
    (KillProcess (StartProcess (AddProcess ProcessManager.fresh p).1 1).1 1).2 = true ∧
    NumberOfLiveProcesses
      (KillProcess (StartProcess (AddProcess ProcessManager.fresh p).1 1).1 1).1 = 0 ∧
    NumberOfSleepingProcesses
      (KillProcess (StartProcess (AddProcess ProcessManager.fresh p).1 1).1 1).1 = 0 ∧
    NumberOfProcesses
      (KillProcess (StartProcess (AddProcess ProcessManager.fresh p).1 1).1 1).1 = 1 := by
  have hadd : AddProcess ProcessManager.fresh p =
      ({ processes := [{ id := 1, process := p, state := ProcessState.Added }], last_id := 1 },
        some 1) := by
    simp [AddProcess, ProcessManager.fresh, hvalid]
  have hstart : StartProcess (AddProcess ProcessManager.fresh p).1 1 =
      ({ processes := [{ id := 1, process := p, state := ProcessState.Running }], last_id := 1 },
        true) := by
    rw [hadd]
    simp [StartProcess, transition]
  have hdie : LetProcessDie (StartProcess (AddProcess ProcessManager.fresh p).1 1).1 1 =
      ({ processes := [{ id := 1, process := p, state := ProcessState.Died }], last_id := 1 },
        true) := by
    rw [hstart]
    simp [LetProcessDie, transition]
  have hkill : KillProcess (StartProcess (AddProcess ProcessManager.fresh p).1 1).1 1 =
      ({ processes := [{ id := 1, process := p, state := ProcessState.Killed }], last_id := 1 },
        true) := by
    rw [hstart]
    simp [KillProcess, transition]
  rw [hdie, hkill, hstart, hadd]
  simp [NumberOfLiveProcesses, NumberOfSleepingProcesses, NumberOfProcesses]

/-- Witness of C20: the two tests of `process_test.cc`, on the descriptor they build. -/
theorem start_then_die_or_kill_witness :
    NumberOfLiveProcesses (StartProcess (AddProcess ProcessManager.fresh dummyProcess).1 1).1
      = 1 ∧
    NumberOfLiveProcesses
      (LetProcessDie (StartProcess (AddProcess ProcessManager.fresh dummyProcess).1 1).1 1).1
      = 0 ∧
    NumberOfLiveProcesses
      (KillProcess (StartProcess (AddProcess ProcessManager.fresh dummyProcess).1 1).1 1).1
      = 0 :=
  ⟨(start_then_die_or_kill dummyProcess (by decide)).2.2.1,
    (start_then_die_or_kill dummyProcess (by decide)).2.2.2.2.2.1,
    (start_then_die_or_kill dummyProcess (by decide)).2.2.2.2.2.2.2.2.2.1⟩

/-! ## Rejected supervisor operations -/

/-- An identifier that no record carries admits no transition. -/
theorem transition_unknown (id : Nat) (current next : ProcessState) :
    ∀ (records : List ProcessRecord), (∀ r ∈ records, r.id ≠ id) →
      transition id current next records = none := by
  intro records
  induction records with
  | nil => intro _; rfl
  | cons r rest ih =>
    intro h
    have hr : r.id ≠ id := h r (List.mem_cons_self r rest)
    simp [transition, hr, ih (fun q hq => h q (List.mem_cons_of_mem r hq))]

/-- A record that is not in the state the transition starts from admits no transition. -/
theorem transition_wrong_state (id : Nat) (current next : ProcessState) :
    ∀ (records : List ProcessRecord) (r : ProcessRecord),
      records.find? (fun q => decide (q.id = id)) = some r → r.state ≠ current →
      transition id current next records = none := by
  intro records
  induction records with
  | nil => intro r h; simp at h
  | cons q rest ih =>
    intro r hfind hstate
    by_cases hq : q.id = id
    · simp [List.find?_cons, hq] at hfind
      subst hfind
      simp [transition, hq, hstate]
    · simp [List.find?_cons, hq] at hfind
      simp [transition, hq, ih r hfind hstate]

/-- C21: a rejected supervisor operation changes nothing. If the identifier is unknown to
the table, `StartProcess`, `KillProcess` and `LetProcessDie` all fail and return the table
as it was; if the record of the identifier is not in `Added`, `StartProcess` does; if it
is not in `Running`, `KillProcess` and `LetProcessDie` do. The returned table being the
same, no record's state changes and the process count is the same. -/
theorem rejected_operation_leaves_table (m : ProcessManager) (id : Nat) :
    ((∀ r ∈ m.processes, r.id ≠ id) →
      StartProcess m id = (m, false) ∧ KillProcess m id = (m, false) ∧
        LetProcessDie m id = (m, false)) ∧
    (∀ r, m.processes.find? (fun q => decide (q.id = id)) = some r →
      r.state ≠ ProcessState.Added → StartProcess m id = (m, false)) ∧
    (∀ r, m.processes.find? (fun q => decide (q.id = id)) = some r →
      r.state ≠ ProcessState.Running →
      KillProcess m id = (m, false) ∧ LetProcessDie m id = (m, false)) := by
  refine ⟨?_, ?_, ?_⟩
  · intro h
    simp [StartProcess, KillProcess, LetProcessDie, transition_unknown id _ _ m.processes h]
  · intro r hfind hstate
    simp [StartProcess, transition_wrong_state id _ _ m.processes r hfind hstate]
  · intro r hfind hstate
    simp [KillProcess, LetProcessDie, transition_wrong_state id _ _ m.processes r hfind hstate]

/-- Witness of C21: on a table with one record in `Added` under identifier 1, every
operation on the unknown identifier 2 fails, and so does `KillProcess` on identifier 1. -/
theorem rejected_operation_leaves_table_witness :
    StartProcess (AddProcess ProcessManager.fresh dummyProcess).1 2 =
      ((AddProcess ProcessManager.fresh dummyProcess).1, false) ∧
    KillProcess (AddProcess ProcessManager.fresh dummyProcess).1 1 =
      ((AddProcess ProcessManager.fresh dummyProcess).1, false) :=
  ⟨((rejected_operation_leaves_table (AddProcess ProcessManager.fresh dummyProcess).1 2).1
      (by decide)).1,
    ((rejected_operation_leaves_table (AddProcess ProcessManager.fresh dummyProcess).1 1).2.2
      { id := 1, process := dummyProcess, state := ProcessState.Added }
      (by decide) (by decide)).1⟩

/-! ## The handshake outside `kInitialising` -/

namespace priv

/-- C23: outside `kInitialising` the handshake is closed. For every controller whose state
is `kVerified` or `kFailed`, `ConnectToManager` changes nothing and sends nothing, whether
it is called directly, through `OnSendError`, or through a hello response that is rejected:
the state and the recorded port are unchanged and no probe is sent. -/
theorem ConnectToManager_noop_outside_initialising (vm : VaultManager) (ser : Serialisation)
    (c : ClientController) (payload : String) (info : Info) (callback : Bool)
    (hstate : c.state_ = State.kVerified ∨ c.state_ = State.kFailed)
    (hbad : malformedHello ser payload) :
    ConnectToManager vm c = (c, []) ∧
    (OnSendError vm c callback).1 = c ∧
    probesOf (OnSendError vm c callback).2 = [] ∧
    ConnectToManagerCallback vm ser c payload info = (c, []) ∧
    (HandleIncomingMessage vm ser c VaultManagerMessageType.kHelloResponseToClient payload
      info callback).1 = c ∧
    probesOf (HandleIncomingMessage vm ser c VaultManagerMessageType.kHelloResponseToClient
      payload info callback).2 = [] := by
  have hne : c.state_ ≠ State.kInitialising := by
    rcases hstate with h | h <;> rw [h] <;> decide
  have hconn : ConnectToManager vm c = (c, []) := by
    simp [ConnectToManager, hne]
  have hcb : ConnectToManagerCallback vm ser c payload info = (c, []) := by
    unfold malformedHello at hbad
    unfold ConnectToManagerCallback
    cases hparse : ser.parseClientHelloResponse payload with
    | none => simpa using hconn
    | some response =>
      rw [hparse] at hbad
      simpa [hbad] using hconn
  refine ⟨hconn, ?_, ?_, hcb, ?_, ?_⟩
  · cases callback <;> simp [OnSendError, hconn]
  · cases callback <;> simp [OnSendError, hconn, probesOf]
  · by_cases hip : info.endpoint.ip = "127.0.0.1" <;>
      cases callback <;> simp [HandleIncomingMessage, hip, hcb]
  · by_cases hip : info.endpoint.ip = "127.0.0.1" <;>
      cases callback <;> simp [HandleIncomingMessage, hip, hcb, probesOf]

/-- Witness of C23: a verified controller on port 5484 receives a transport error and a
rejected hello response on a channel with a completion callback. -/
theorem ConnectToManager_noop_outside_initialising_witness :
    ConnectToManager sampleVaultManager { port_ := 5484, state_ := State.kVerified } =
      ({ port_ := 5484, state_ := State.kVerified }, []) ∧
    (OnSendError sampleVaultManager { port_ := 5484, state_ := State.kVerified } true).1 =
      { port_ := 5484, state_ := State.kVerified } :=
  ⟨(ConnectToManager_noop_outside_initialising sampleVaultManager sampleSerialisation
      { port_ := 5484, state_ := State.kVerified } "garbage" (loopback 5484) true
      (Or.inl rfl) (by simp [malformedHello, sampleSerialisation])).1,
    (ConnectToManager_noop_outside_initialising sampleVaultManager sampleSerialisation
      { port_ := 5484, state_ := State.kVerified } "garbage" (loopback 5484) true
      (Or.inl rfl) (by simp [malformedHello, sampleSerialisation])).2.1⟩

end priv

/-! ## Worker start-up with a well-formed identifier -/

namespace priv

end priv

/-! ## Update check -/

/-- An entry whose first three fields match and whose version and patch-level fields
convert, checked against a current version and patch level that convert: it is accepted
exactly when its version is at least the current one and its patch level is greater than
the current one. -/
theorem FileIsUseful_numeric (lexical_cast : String → Option Nat) (d : DownloadManager)
    (file version_field patchlevel_field : String) (rest : List String)
    (version patchlevel current_version current_patchlevel : Nat)
    (htok : fileTokens file =
      d.name_ :: d.platform_ :: d.cpu_size_ :: version_field :: patchlevel_field :: rest)
    (hv : lexical_cast version_field = some version)
    (hp : lexical_cast patchlevel_field = some patchlevel)
    (hcv : d.current_version_ ≠ "") (hcp : d.current_patchlevel_ ≠ "")
    (hcvn : lexical_cast d.current_version_ = some current_version)
    (hcpn : lexical_cast d.current_patchlevel_ = some current_patchlevel) :
    d.FileIsUseful lexical_cast file =
      Outcome.returned (decide (current_version ≤ version ∧ current_patchlevel < patchlevel)) := by
  simp only [DownloadManager.FileIsUseful, htok, hv, hp, hcv, hcp, hcvn, hcpn, ne_eq,
    not_true_eq_false, if_false]
  by_cases h1 : version < current_version
  · have h1' : ¬ current_version ≤ version := by omega
    simp [h1, h1']
  · have h1' : current_version ≤ version := by omega
    by_cases h2 : patchlevel ≤ current_patchlevel
    · have h2' : ¬ current_patchlevel < patchlevel := by omega
      simp [h1, h2, h2']
    · have h2' : current_patchlevel < patchlevel := by omega
      simp [h1, h1', h2, h2']

/-- C22, as stated, fails on the code: with current version 3 and an empty current patch
level, the entry `vault_linux_64_5_beta` has matching name, platform and cpu size and the
numeric version 5, which is at least 3; `FileIsUseful` converts the patch-level field
before it looks at the current patch level and is left by `bad_lexical_cast`. The entry
`vault_linux_64_5`, without a patch-level field, makes it read past the last token. -/
theorem FileIsUseful_needs_patchlevel_field :
    fileTokens "vault_linux_64_5_beta" = ["vault", "linux", "64", "5", "beta"] ∧
    priv.sampleLexicalCast "5" = some 5 ∧
    DownloadManager.FileIsUseful priv.sampleLexicalCast
      { sampleDownload with current_patchlevel_ := "" } "vault_linux_64_5_beta" =
      Outcome.bad_lexical_cast ∧
    DownloadManager.FileIsUseful priv.sampleLexicalCast
      { sampleDownload with current_patchlevel_ := "" } "vault_linux_64_5_beta" ≠
      Outcome.returned true ∧
    DownloadManager.FileIsUseful priv.sampleLexicalCast
      { sampleDownload with current_patchlevel_ := "" } "vault_linux_64_5" =
      Outcome.past_the_end := by
  refine ⟨?_, ?_, ?_, ?_, ?_⟩ <;> decide

/-- C22, amended: for every file-list entry whose name, platform and cpu-size fields match
and whose version field converts, `FileIsUseful` returns `true` when `current_version` is
the empty string; and when `current_version` converts and `current_patchlevel` is the
empty string, it returns `true` for every such entry that also has a patch-level field
that converts and whose version is at least the current version. -/
theorem FileIsUseful_ignores_empty_current (lexical_cast : String → Option Nat)
    (d : DownloadManager) (file version_field : String) (rest : List String) (version : Nat)
    (htok : fileTokens file = d.name_ :: d.platform_ :: d.cpu_size_ :: version_field :: rest)
    (hv : lexical_cast version_field = some version) :
    (d.current_version_ = "" → d.FileIsUseful lexical_cast file = Outcome.returned true) ∧
    (∀ (current_version patchlevel : Nat) (patchlevel_field : String) (rest1 : List String),
      d.current_version_ ≠ "" → lexical_cast d.current_version_ = some current_version →
      d.current_patchlevel_ = "" → rest = patchlevel_field :: rest1 →
      lexical_cast patchlevel_field = some patchlevel → current_version ≤ version →
      d.FileIsUseful lexical_cast file = Outcome.returned true) := by
  refine ⟨?_, ?_⟩
  · intro hcv
    simp [DownloadManager.FileIsUseful, htok, hv, hcv]
  · intro current_version patchlevel patchlevel_field rest1 hcv hcvn hcp hrest hp hle
    have hlt : ¬ version < current_version := by omega
    subst hrest
    simp [DownloadManager.FileIsUseful, htok, hv, hcv, hcvn, hcp, hp, hlt]

/-- Witness of the amended C22: the entry `vault_linux_64_5_2` against an empty current
version, and against current version 3 with an empty current patch level. -/
theorem FileIsUseful_ignores_empty_current_witness :
    DownloadManager.FileIsUseful priv.sampleLexicalCast
      { sampleDownload with current_version_ := "" } "vault_linux_64_5_2" =
      Outcome.returned true ∧
    DownloadManager.FileIsUseful priv.sampleLexicalCast
      { sampleDownload with current_patchlevel_ := "" } "vault_linux_64_5_2" =
      Outcome.returned true :=
  ⟨(FileIsUseful_ignores_empty_current priv.sampleLexicalCast
      { sampleDownload with current_version_ := "" } "vault_linux_64_5_2" "5" ["2"] 5
      (by decide) (by decide)).1 (by decide),
    (FileIsUseful_ignores_empty_current priv.sampleLexicalCast
      { sampleDownload with current_patchlevel_ := "" } "vault_linux_64_5_2" "5" ["2"] 5
      (by decide) (by decide)).2 3 2 "2" [] (by decide) (by decide) (by decide) rfl
      (by decide) (by decide)⟩

/-- C26, evaluated on the code: against current version 3 and patch level 5, the entry
`vault_linux_64_4_0` has the pair (4, 0), which is greater than (3, 5) in lexicographic
order, and `FileIsUseful` returns `false`: the patch levels are compared although the
versions differ. The equal pair (3, 5) is rejected and the pair (3, 6) accepted, as the
claim says. -/
theorem FileIsUseful_rejects_newer_version :
    fileTokens "vault_linux_64_4_0" = ["vault", "linux", "64", "4", "0"] ∧
    priv.sampleLexicalCast "4" = some 4 ∧ priv.sampleLexicalCast "0" = some 0 ∧
    priv.sampleLexicalCast sampleDownload.current_version_ = some 3 ∧
    priv.sampleLexicalCast sampleDownload.current_patchlevel_ = some 5 ∧
    DownloadManager.FileIsUseful priv.sampleLexicalCast sampleDownload "vault_linux_64_4_0" =
      Outcome.returned false ∧
    DownloadManager.FileIsUseful priv.sampleLexicalCast sampleDownload "vault_linux_64_3_5" =
      Outcome.returned false ∧
    DownloadManager.FileIsUseful priv.sampleLexicalCast sampleDownload "vault_linux_64_3_6" =
      Outcome.returned true := by
  refine ⟨?_, ?_, ?_, ?_, ?_, ?_, ?_, ?_⟩ <;> decide

/-- C28: `FileIsUseful` is total on well-formed entries. If the entry splits on `_` into
at least five fields, of which the fourth and the fifth are decimal numerals that fit in
32 bits, and the current version and the current patch level are each empty or such a
numeral, then `FileIsUseful` returns a boolean: it neither reads a token past the end nor
is it left by a failed conversion. `lexical_cast<uint32_t>` is taken to convert every
decimal numeral that fits in 32 bits. -/
theorem FileIsUseful_total (lexical_cast : String → Option Nat) (d : DownloadManager)
    (file f1 f2 f3 f4 f5 : String) (rest : List String)
    (hlib : ∀ s, isNumeral32 s → lexical_cast s ≠ none)
    (htok : fileTokens file = f1 :: f2 :: f3 :: f4 :: f5 :: rest)
    (h4 : isNumeral32 f4) (h5 : isNumeral32 f5)
    (hcv : d.current_version_ = "" ∨ isNumeral32 d.current_version_)
    (hcp : d.current_patchlevel_ = "" ∨ isNumeral32 d.current_patchlevel_) :
    ∃ b, d.FileIsUseful lexical_cast file = Outcome.returned b := by
  obtain ⟨version, hv⟩ := Option.ne_none_iff_exists'.mp (hlib f4 h4)
  obtain ⟨patchlevel, hp⟩ := Option.ne_none_iff_exists'.mp (hlib f5 h5)
  simp only [DownloadManager.FileIsUseful, htok, hv, hp]
  by_cases hn : d.name_ = f1
  swap
  · exact ⟨false, by simp [hn]⟩
  by_cases hpl : d.platform_ = f2
  swap
  · exact ⟨false, by simp [hn, hpl]⟩
  by_cases hcs : d.cpu_size_ = f3
  swap
  · exact ⟨false, by simp [hn, hpl, hcs]⟩
  by_cases hcve : d.current_version_ = ""
  · exact ⟨true, by simp [hn, hpl, hcs, hcve]⟩
  have hcvnum : isNumeral32 d.current_version_ := by
    rcases hcv with h | h
    · exact absurd h hcve
    · exact h
  obtain ⟨current_version, hcvn⟩ := Option.ne_none_iff_exists'.mp (hlib _ hcvnum)
  by_cases hlt : version < current_version
  · exact ⟨false, by simp [hn, hpl, hcs, hcve, hcvn, hlt]⟩
  by_cases hcpe : d.current_patchlevel_ = ""
  · exact ⟨true, by simp [hn, hpl, hcs, hcve, hcvn, hlt, hcpe]⟩
  have hcpnum : isNumeral32 d.current_patchlevel_ := by
    rcases hcp with h | h
    · exact absurd h hcpe
    · exact h
  obtain ⟨current_patchlevel, hcpn⟩ := Option.ne_none_iff_exists'.mp (hlib _ hcpnum)
  by_cases hle : patchlevel ≤ current_patchlevel
  · exact ⟨false, by simp [hn, hpl, hcs, hcve, hcvn, hlt, hcpe, hcpn, hle]⟩
  · exact ⟨true, by simp [hn, hpl, hcs, hcve, hcvn, hlt, hcpe, hcpn, hle]⟩

/-- Witness of C28: the entry `vault_linux_64_4_0` against current version 3 and patch
level 5, with the sample conversion. -/
theorem FileIsUseful_total_witness :
    ∃ b, DownloadManager.FileIsUseful priv.sampleLexicalCast sampleDownload
      "vault_linux_64_4_0" = Outcome.returned b :=
  FileIsUseful_total priv.sampleLexicalCast sampleDownload "vault_linux_64_4_0"
    "vault" "linux" "64" "4" "0" [] (fun _ h => h) (by decide)
    (by unfold isNumeral32; decide) (by unfold isNumeral32; decide)
    (Or.inr (by unfold isNumeral32; decide)) (Or.inr (by unfold isNumeral32; decide))

/-! ## Failure of the handshake -/

namespace priv

/-- A valid hello response from the loopback address verifies the session, whatever the
state, and sends no probe. -/
theorem Event_apply_validHello (vm : VaultManager) (ser : Serialisation) (c : ClientController)
    (e : Event) (h : e.validHello ser = true) :
    (e.apply vm ser c).1.state_ = State.kVerified ∧ probesOf (e.apply vm ser c).2 = [] := by
  cases e with
  | connectToManager => simp [Event.validHello] at h
  | channel ev callback =>
    cases ev with
    | error => simp [Event.validHello] at h
    | messageReceived type payload sender =>
      cases type <;> try (simp [Event.validHello] at h)
      obtain ⟨hip, hpay⟩ := h
      cases hparse : ser.parseClientHelloResponse payload with
      | none => simp [hparse] at hpay
      | some response =>
        rw [hparse] at hpay
        have htext : response.hello_response = "hello response" := by simpa using hpay
        cases callback <;>
          simp [Event.apply, ChannelEvent.deliver, HandleIncomingMessage, hip,
            ConnectToManagerCallback, hparse, htext, probesOf]

/-- Any other event either acts as one call of `ConnectToManager` or leaves the controller
alone and sends no probe. -/
theorem Event_apply_other (vm : VaultManager) (ser : Serialisation) (c : ClientController)
    (e : Event) (h : e.validHello ser = false) :
    ((e.apply vm ser c).1 = (ConnectToManager vm c).1 ∧
      probesOf (e.apply vm ser c).2 = probesOf (ConnectToManager vm c).2) ∨
    ((e.apply vm ser c).1 = c ∧ probesOf (e.apply vm ser c).2 = []) := by
  cases e with
  | connectToManager => exact Or.inl ⟨rfl, rfl⟩
  | channel ev callback =>
    cases ev with
    | error =>
      left
      cases callback
      · simp [Event.apply, ChannelEvent.deliver, OnSendError]
      · simp [Event.apply, ChannelEvent.deliver, OnSendError, probesOf_append_callback]
    | messageReceived type payload sender =>
      by_cases hip : sender.endpoint.ip = "127.0.0.1"
      · cases type with
        | kHelloResponseToClient =>
          left
          have hcb : ConnectToManagerCallback vm ser c payload sender =
              ConnectToManager vm c := by
            unfold ConnectToManagerCallback
            cases hparse : ser.parseClientHelloResponse payload with
            | none => rfl
            | some response =>
              have htext : response.hello_response ≠ "hello response" := by
                intro ht
                simp [Event.validHello, hip, hparse, ht] at h
              simp [htext]
          cases callback
          · simp [Event.apply, ChannelEvent.deliver, HandleIncomingMessage, hip, hcb]
          · simp [Event.apply, ChannelEvent.deliver, HandleIncomingMessage, hip, hcb,
              probesOf_append_callback]
        | kStartResponseToClient =>
          right
          cases callback
          · simp [Event.apply, ChannelEvent.deliver, HandleIncomingMessage, hip,
              StartVaultRequestCallback, probesOf]
          · cases hparse : ser.parseClientStartVaultResponse payload <;>
              simp [Event.apply, ChannelEvent.deliver, HandleIncomingMessage, hip,
                StartVaultRequestCallback, hparse, probesOf]
        | kHelloFromClient =>
          right
          simp [Event.apply, ChannelEvent.deliver, HandleIncomingMessage, hip, probesOf]
        | kStartRequestFromClient =>
          right
          simp [Event.apply, ChannelEvent.deliver, HandleIncomingMessage, hip, probesOf]
        | kOther tag =>
          right
          simp [Event.apply, ChannelEvent.deliver, HandleIncomingMessage, hip, probesOf]
      · right
        simp [Event.apply, ChannelEvent.deliver, HandleIncomingMessage, hip, probesOf]

/-- The invariant survives further probes. -/
theorem cursorInvariant_append (vm : VaultManager) (c : ClientController)
    (probed more : List Nat) (h : cursorInvariant vm c probed) :
    cursorInvariant vm c (probed ++ more) := by
  refine ⟨fun hs => ⟨(h.1 hs).1, fun h0 p h1 h2 => ?_⟩, fun hs p h1 h2 => ?_⟩
  · exact List.mem_append_left _ ((h.1 hs).2 h0 p h1 h2)
  · exact List.mem_append_left _ (h.2 hs p h1 h2)

end priv

namespace priv

/-- One call of `ConnectToManager` keeps the invariant, with its probe added to the ports
probed so far. -/
theorem ConnectToManager_cursorInvariant (vm : VaultManager) (c : ClientController)
    (probed : List Nat) (h : cursorInvariant vm c probed) :
    cursorInvariant vm (ConnectToManager vm c).1
      (probed ++ probesOf (ConnectToManager vm c).2) := by
  by_cases hs : c.state_ = State.kInitialising
  · have hinit : ¬ c.state_ ≠ State.kInitialising := fun hn => hn hs
    obtain ⟨hlt, hprobed⟩ := h.1 hs
    by_cases h0 : c.port_ = 0
    · have hm : vm.kMinPort % 65536 < 65536 := Nat.mod_lt _ (by decide)
      have hmle : vm.kMinPort % 65536 ≤ vm.kMinPort := Nat.mod_le _ _
      by_cases hgt : vm.kMinPort % 65536 > vm.kMaxPort
      · have hres : ConnectToManager vm c =
            ({ port_ := vm.kMinPort % 65536, state_ := State.kFailed }, [Action.notify_all]) := by
          simp [ConnectToManager, hs, h0, hgt]
        rw [hres]
        refine ⟨fun hf => by simp at hf, fun _ p h1 h2 => ?_⟩
        omega
      · have hres : ConnectToManager vm c =
            ({ port_ := vm.kMinPort % 65536, state_ := State.kInitialising },
              [Action.sendHello (vm.kMinPort % 65536)]) := by
          rw [ConnectToManager, if_neg hinit]
          simp only [h0, if_true, if_neg hgt]
          cases c
          simp_all
        rw [hres]
        refine ⟨fun _ => ⟨hm, fun _ p h1 h2 => ?_⟩, fun hf => by simp at hf⟩
        have hp : p = vm.kMinPort % 65536 := by
          simp only at h2
          omega
        simp [probesOf, hp]
    · by_cases hwrap : c.port_ + 1 = 65536
      · have hmod : (c.port_ + 1) % 65536 = 0 := by rw [hwrap]
        have hres : ConnectToManager vm c =
            ({ port_ := 0, state_ := State.kInitialising }, [Action.sendHello 0]) := by
          rw [ConnectToManager, if_neg hinit]
          simp only [h0, if_false, hmod]
          have hz : ¬ 0 > vm.kMaxPort := by omega
          rw [if_neg hz]
          cases c
          simp_all
        rw [hres]
        refine ⟨fun _ => ⟨by decide, fun hne => absurd rfl hne⟩, fun hf => by simp at hf⟩
      · have hmod : (c.port_ + 1) % 65536 = c.port_ + 1 := Nat.mod_eq_of_lt (by omega)
        by_cases hgt : c.port_ + 1 > vm.kMaxPort
        · have hres : ConnectToManager vm c =
              ({ port_ := c.port_ + 1, state_ := State.kFailed }, [Action.notify_all]) := by
            simp [ConnectToManager, hs, h0, hmod, hgt]
          rw [hres]
          refine ⟨fun hf => by simp at hf, fun _ p h1 h2 => ?_⟩
          exact List.mem_append_left _ (hprobed h0 p h1 (by omega))
        · have hres : ConnectToManager vm c =
              ({ port_ := c.port_ + 1, state_ := State.kInitialising },
                [Action.sendHello (c.port_ + 1)]) := by
            rw [ConnectToManager, if_neg hinit]
            simp only [h0, if_false, hmod, if_neg hgt]
            cases c
            simp_all
          rw [hres]
          refine ⟨fun _ => ⟨by simp only; omega, fun _ p h1 h2 => ?_⟩, fun hf => by simp at hf⟩
          by_cases hp : p ≤ c.port_
          · exact List.mem_append_left _ (hprobed h0 p h1 hp)
          · have hpe : p = c.port_ + 1 := by
              simp only at h2
              omega
            simp [probesOf, hpe]
  · have hres : ConnectToManager vm c = (c, []) := by simp [ConnectToManager, hs]
    rw [hres]
    exact cursorInvariant_append vm c probed _ h

/-- One event keeps the invariant. -/
theorem Event_apply_cursorInvariant (vm : VaultManager) (ser : Serialisation)
    (c : ClientController) (e : Event) (probed : List Nat) (h : cursorInvariant vm c probed) :
    cursorInvariant vm (e.apply vm ser c).1 (probed ++ probesOf (e.apply vm ser c).2) := by
  cases hv : e.validHello ser with
  | true =>
    obtain ⟨hstate, _⟩ := Event_apply_validHello vm ser c e hv
    refine ⟨fun hs => ?_, fun hs => ?_⟩
    · rw [hstate] at hs; exact absurd hs (by decide)
    · rw [hstate] at hs; exact absurd hs (by decide)
  | false =>
    rcases Event_apply_other vm ser c e hv with ⟨h1, h2⟩ | ⟨h1, h2⟩
    · rw [h1, h2]
      exact ConnectToManager_cursorInvariant vm c probed h
    · rw [h1, h2]
      exact cursorInvariant_append vm c probed [] h

/-- A sequence of events keeps the invariant. -/
theorem runEvents_cursorInvariant (vm : VaultManager) (ser : Serialisation) :
    ∀ (events : List Event) (c : ClientController) (probed : List Nat),
      cursorInvariant vm c probed →
      cursorInvariant vm (runEvents vm ser c events).1
        (probed ++ probesOf (runEvents vm ser c events).2) := by
  intro events
  induction events with
  | nil =>
    intro c probed h
    exact cursorInvariant_append vm c probed _ h
  | cons e es ih =>
    intro c probed h
    have hstep := Event_apply_cursorInvariant vm ser c e probed h
    have hrest := ih (e.apply vm ser c).1 _ hstep
    simp only [runEvents, probesOf_append]
    rw [← List.append_assoc]
    exact hrest

/-- A verified session stays verified. -/
theorem runEvents_verified (vm : VaultManager) (ser : Serialisation) :
    ∀ (events : List Event) (c : ClientController), c.state_ = State.kVerified →
      (runEvents vm ser c events).1.state_ = State.kVerified := by
  intro events
  induction events with
  | nil => intro c h; exact h
  | cons e es ih =>
    intro c h
    simp only [runEvents]
    apply ih
    cases hv : e.validHello ser with
    | true => exact (Event_apply_validHello vm ser c e hv).1
    | false =>
      have hconn : ConnectToManager vm c = (c, []) := by simp [ConnectToManager, h]
      rcases Event_apply_other vm ser c e hv with ⟨h1, _⟩ | ⟨h1, _⟩
      · rw [h1, hconn]; exact h
      · rw [h1]; exact h

/-- After a valid hello response from the loopback address the session is verified, whatever
follows. -/
theorem runEvents_validHello (vm : VaultManager) (ser : Serialisation) :
    ∀ (events : List Event) (c : ClientController),
      (∃ e ∈ events, e.validHello ser = true) →
      (runEvents vm ser c events).1.state_ = State.kVerified := by
  intro events
  induction events with
  | nil => intro c h; simp at h
  | cons e es ih =>
    intro c h
    simp only [runEvents]
    cases hv : e.validHello ser with
    | true =>
      exact runEvents_verified vm ser es _ (Event_apply_validHello vm ser c e hv).1
    | false =>
      apply ih
      obtain ⟨e1, hmem, hval⟩ := h
      rcases List.mem_cons.mp hmem with heq | hmem1
      · rw [heq, hv] at hval; exact absurd hval (by decide)
      · exact ⟨e1, hmem1, hval⟩

/-- C24: from a fresh controller, along every sequence of `ConnectToManager` calls,
transport errors and inbound messages, the state is `kFailed` only if a hello probe has
been sent to every port of the range from `kMinPort` to `kMaxPort` and no valid hello
response from the loopback address has been handled. -/
theorem failed_only_after_whole_range (vm : VaultManager) (ser : Serialisation)
    (events : List Event)
    (hfailed : (runEvents vm ser ClientController.fresh events).1.state_ = State.kFailed) :
    (∀ p, vm.kMinPort ≤ p → p ≤ vm.kMaxPort →
      p ∈ probesOf (runEvents vm ser ClientController.fresh events).2) ∧
    (∀ e ∈ events, e.validHello ser = false) := by
  have hfresh : cursorInvariant vm ClientController.fresh [] :=
    ⟨fun _ => ⟨by decide, fun h0 => absurd rfl h0⟩, fun hf => absurd hf (by decide)⟩
  have hinv := runEvents_cursorInvariant vm ser events ClientController.fresh [] hfresh
  rw [List.nil_append] at hinv
  refine ⟨hinv.2 hfailed, ?_⟩
  intro e he
  cases hv : e.validHello ser with
  | false => rfl
  | true =>
    have hver := runEvents_validHello vm ser events ClientController.fresh ⟨e, he, hv⟩
    rw [hver] at hfailed
    exact absurd hfailed (by decide)

/-- Witness of C24: on the sample range the constructor's call and three transport errors
end in `kFailed`, and each of the three ports has been probed. -/
theorem failed_only_after_whole_range_witness :
    (runEvents sampleVaultManager sampleSerialisation ClientController.fresh
      [Event.connectToManager, Event.channel ChannelEvent.error false,
       Event.channel ChannelEvent.error false,
       Event.channel ChannelEvent.error false]).1.state_ = State.kFailed ∧
    5484 ∈ probesOf (runEvents sampleVaultManager sampleSerialisation ClientController.fresh
      [Event.connectToManager, Event.channel ChannelEvent.error false,
       Event.channel ChannelEvent.error false,
       Event.channel ChannelEvent.error false]).2 :=
  ⟨by decide,
    (failed_only_after_whole_range sampleVaultManager sampleSerialisation
      [Event.connectToManager, Event.channel ChannelEvent.error false,
       Event.channel ChannelEvent.error false,
       Event.channel ChannelEvent.error false] (by decide)).1 5484 (by decide) (by decide)⟩

end priv

end maidsafe
